import Mathlib

/-!
Verification development for the Vault repository (`vault/vault.py`,
`profile_secrets/generator.py`).

The Python source is shallowly embedded: bytes are `List Nat` (each entry a
byte value), machine randomness (`secrets.token_bytes`, `secrets.choice`,
`random.SystemRandom().shuffle`) is an explicit byte stream `Rng` threaded
through the operations, wall-clock time (`now_ms`) is an explicit argument,
and fallible code returns `Except VaultErr`.

External cryptographic library primitives (AES-GCM core, SHA-256, HKDF,
Argon2/PBKDF2) are not code of this repository; they are modelled by
concrete executable stand-ins that preserve the interface properties the
repository relies on (determinism, output lengths, tag verification).  All
layout decisions made *in the repository's own code* — nonce prefixing,
nonce/tag sizes, AAD selection and fallback, hash-addressed blob paths,
row handling — are translated faithfully from `vault.py`.
-/

set_option maxRecDepth 100000

set_option maxHeartbeats 4000000

/-! ## Byte-stream randomness (model of the OS CSPRNG) -/

/-- Model of the OS cryptographic RNG: a deterministic byte stream given
by a seed and a read position.  `secrets.token_bytes(n)` reads `n` bytes. -/
structure Rng where
  seed : Nat
  pos : Nat
deriving DecidableEq, Repr

/-- Byte `pos` of the modelled random stream with the given seed. -/
def rngByte (seed pos : Nat) : Nat :=
  (seed + (pos + 1) * 2654435761 + (pos + 3) * (pos + 3) * 97) % 256

/-- `secrets.token_bytes(n)`: draw `n` bytes from the stream. -/
def tokenBytes (r : Rng) (n : Nat) : List Nat × Rng :=
  ((List.range n).map (fun i => rngByte r.seed (r.pos + i)), ⟨r.seed, r.pos + n⟩)

/-! ## UTF-8 encoding (model of `str.encode("utf-8")`) -/

/-- UTF-8 encoding of a single code point. -/
def utf8EncodeCharM (n : Nat) : List Nat :=
  if n < 0x80 then [n]
  else if n < 0x800 then
    [0xC0 ||| (n >>> 6), 0x80 ||| (n &&& 0x3F)]
  else if n < 0x10000 then
    [0xE0 ||| (n >>> 12), 0x80 ||| ((n >>> 6) &&& 0x3F), 0x80 ||| (n &&& 0x3F)]
  else
    [0xF0 ||| (n >>> 18), 0x80 ||| ((n >>> 12) &&& 0x3F),
     0x80 ||| ((n >>> 6) &&& 0x3F), 0x80 ||| (n &&& 0x3F)]

/-- `s.encode("utf-8")` as a byte list. -/
def utf8Bytes (s : String) : List Nat :=
  s.data.foldr (fun c acc => utf8EncodeCharM c.toNat ++ acc) []

/-! ## AES-256-GCM model

The `cryptography` library's `AESGCM` object is modelled as a deterministic
stream cipher plus a 16-byte tag over (key, nonce, ciphertext, AAD).  The
repository relies on: ciphertext length = plaintext length + 16,
decryption inverts encryption under the same key/nonce/AAD, and decryption
fails when the tag does not verify.  The library treats a `None` AAD and an
empty AAD identically (GHASH over the empty string), so the model
normalizes `Option` AAD to a plain byte list before reaching the core. -/

/-- Deterministic mixing fold used by the modelled primitives. -/
def mixList (bs : List Nat) : Nat :=
  bs.foldl (fun acc b => (acc * 257 + b + 1) % 2305843009213693951) 7

/-- Model keystream byte `i` of AES-CTR under `key` and `nonce`. -/
def ksByte (key nonce : List Nat) (i : Nat) : Nat :=
  ((mixList key * 131 + mixList nonce * 31 + (i + 1) * 97) % 2305843009213693951) % 256

/-- XOR a byte list against the keystream starting at index `i`. -/
def xorKs (key nonce : List Nat) : Nat → List Nat → List Nat
  | _, [] => []
  | i, b :: bs => (b ^^^ ksByte key nonce i) :: xorKs key nonce (i + 1) bs

/-- Model of the 16-byte GCM authentication tag over key, nonce,
ciphertext body and (effective) AAD. -/
def gcmTag (key nonce ct aadE : List Nat) : List Nat :=
  (List.range 16).map (fun i =>
    ((mixList key * 5 + mixList nonce * 7 + mixList ct * 11 + mixList aadE * 13
      + (i + 1) * 17) % 2305843009213693951) % 256)

/-- `AESGCM(key).encrypt(nonce, pt, aad)`: ciphertext body followed by the
16-byte tag. -/
def gcmEncrypt (key nonce pt aadE : List Nat) : List Nat :=
  let ct := xorKs key nonce 0 pt
  ct ++ gcmTag key nonce ct aadE

/-- `AESGCM(key).decrypt(nonce, blob, aad)`: split off the 16-byte tag,
verify it, and undo the keystream; `none` models `InvalidTag`. -/
def gcmDecrypt (key nonce blob aadE : List Nat) : Option (List Nat) :=
  if blob.length < 16 then none
  else
    let ct := blob.take (blob.length - 16)
    let tag := blob.drop (blob.length - 16)
    if tag = gcmTag key nonce ct aadE then some (xorKs key nonce 0 ct) else none

/-! ## Error taxonomy

Constructors correspond to the Python exceptions raised by the source:
`locked` = `AssertionError("Vault locked")`, `notFound` = `KeyError` (and a
missing blob file), `cryptoFailure` = `cryptography.exceptions.InvalidTag`,
`invalidArgument` = `ValueError` from the password generator,
`integrityError` = a duplicate-primary-key `IntegrityError` on insert,
`jsonError` = `json.JSONDecodeError`, `typeError` = `TypeError` from
dataclass construction / non-dict payloads, plus the spec's `corruptStore`
and `ioError` kinds. -/

inductive VaultErr where
  | locked
  | notFound
  | cryptoFailure
  | invalidArgument
  | corruptStore
  | ioError
  | integrityError
  | jsonError
  | typeError
deriving DecidableEq, Repr

/-! ## AEAD wrappers (`aead_encrypt` / `aead_decrypt`, vault.py lines 120-139) -/

/-- Effective AAD seen by the AESGCM core: Python passes the optional AAD
straight through, and the library treats `None` as the empty AAD. -/
def aadEff (aad : Option (List Nat)) : List Nat := aad.getD []

/-- `aead_encrypt(key, plaintext, aad)`: draw a fresh 12-byte nonce and
return `(nonce || ciphertext_with_tag, nonce)`. -/
def aead_encrypt (key plaintext : List Nat) (aad : Option (List Nat)) (r : Rng) :
    (List Nat × List Nat) × Rng :=
  let (nonce, r1) := tokenBytes r 12
  ((nonce ++ gcmEncrypt key nonce plaintext (aadEff aad), nonce), r1)

/-- `aead_decrypt(key, blob, aad)`: the first 12 bytes are the nonce, the
rest goes to the AEAD verifier. -/
def aead_decrypt (key blob : List Nat) (aad : Option (List Nat)) :
    Except VaultErr (List Nat) :=
  match gcmDecrypt key (blob.take 12) (blob.drop 12) (aadEff aad) with
  | some pt => .ok pt
  | none => .error .cryptoFailure

/-! ## Key derivation (vault.py lines 84-165) -/

/-- Modelled stand-in for the Argon2id primitive (`argon2.low_level.hash_secret_raw`
with time_cost=2, memory_cost=64 MiB, parallelism=1, hash_len=32). -/
def argon2Model (password salt : List Nat) : List Nat :=
  (List.range 32).map (fun i =>
    ((mixList password * 41 + mixList salt * 43 + (i + 1) * 47)
      % 2305843009213693951) % 256)

/-- Modelled stand-in for PBKDF2-HMAC-SHA256 with 480000 iterations and
32-byte output. -/
def pbkdf2Model (password salt : List Nat) : List Nat :=
  (List.range 32).map (fun i =>
    ((mixList password * 53 + mixList salt * 59 + (i + 1) * 61)
      % 2305843009213693951) % 256)

/-- `derive_master_key(password, salt, use_argon2)`.  `haveArgon2` models the
module-level `HAVE_ARGON2` flag (whether the argon2 import succeeded). -/
def derive_master_key (password : String) (salt : List Nat)
    (use_argon2 haveArgon2 : Bool) : List Nat :=
  if use_argon2 && haveArgon2 then argon2Model (utf8Bytes password) salt
  else pbkdf2Model (utf8Bytes password) salt

/-- Modelled stand-in for HKDF-SHA256 (salt=None, length 32) keyed by `mk`
with the given info/context string. -/
def hkdfModel (mk info : List Nat) : List Nat :=
  (List.range 32).map (fun i =>
    ((mixList mk * 67 + mixList info * 71 + (i + 1) * 73)
      % 2305843009213693951) % 256)

/-- `derive_wrap_key(mk)`: HKDF with info `b"vault-wrap-key"`. -/
def derive_wrap_key (mk : List Nat) : List Nat :=
  hkdfModel mk (utf8Bytes "vault-wrap-key")

/-- `WRAP_INFO = b"vault-dek-wrap-v1"` (vault.py line 51). -/
def WRAP_INFO : List Nat := utf8Bytes "vault-dek-wrap-v1"

/-- Python's `aad or WRAP_INFO`: `None` and the empty byte string are both
falsy, so both fall back to the constant. -/
def aadOrWrapInfo (aad : Option (List Nat)) : List Nat :=
  match aad with
  | none => WRAP_INFO
  | some a => if a = [] then WRAP_INFO else a

/-- `wrap_dek(mk, dek, aad)` (vault.py lines 155-159). -/
def wrap_dek (mk dek : List Nat) (aad : Option (List Nat)) (r : Rng) :
    List Nat × Rng :=
  let wrap_key := derive_wrap_key mk
  let ((wrapped_blob, _nonce), r1) :=
    aead_encrypt wrap_key dek (some (aadOrWrapInfo aad)) r
  (wrapped_blob, r1)

/-- `unwrap_dek(mk, wrapped_blob, aad)` (vault.py lines 162-165). -/
def unwrap_dek (mk wrapped_blob : List Nat) (aad : Option (List Nat)) :
    Except VaultErr (List Nat) :=
  let wrap_key := derive_wrap_key mk
  aead_decrypt wrap_key wrapped_blob (some (aadOrWrapInfo aad))

/-- Tag verification of a full `nonce || body || tag` AEAD blob, as checked
by `aead_decrypt`.  `unwrap_dek` succeeds exactly when this holds. -/
def gcmTagOk (key blob aadE : List Nat) : Prop :=
  16 ≤ (blob.drop 12).length ∧
    (blob.drop 12).drop ((blob.drop 12).length - 16)
      = gcmTag key (blob.take 12)
          ((blob.drop 12).take ((blob.drop 12).length - 16)) aadE

instance (key blob aadE : List Nat) : Decidable (gcmTagOk key blob aadE) := by
  unfold gcmTagOk; infer_instance

/-! ## Content-addressed blob store (vault.py lines 171-187)

The filesystem is modelled as an association list from path strings to
byte contents; `open(path, "wb")` overwrites, `open(path, "rb")` on a
missing path raises (here: `notFound`, the spec's kind for a missing
blob). -/

/-- Modelled stand-in for `hashlib.sha256(data).digest()`: a deterministic
32-byte digest.  The repository's claims depend only on determinism and on
the digest length, not on the SHA-256 compression function itself. -/
def sha256Model (data : List Nat) : List Nat :=
  (List.range 32).map (fun i =>
    ((mixList data * 79 + (i + 1) * 83) % 2305843009213693951) % 256)

/-- Lowercase hex alphabet. -/
def hexChars : List Char := "0123456789abcdef".data

/-- Lowercase hex rendering of a byte list (`.hexdigest()`). -/
def hexDigest (bs : List Nat) : String :=
  ⟨bs.foldr (fun b acc => hexChars.getD (b / 16 % 16) '0' :: hexChars.getD (b % 16) '0' :: acc) []⟩

/-- `sha256_hex(data)` (vault.py lines 69-70). -/
def sha256_hex (data : List Nat) : String := hexDigest (sha256Model data)

/-- Filesystem model: path → file contents. -/
abbrev BlobStore := List (String × List Nat)

def storeGet (st : BlobStore) (path : String) : Option (List Nat) :=
  (st.find? (fun p => p.1 = path)).map (·.2)

def storeSet (st : BlobStore) (path : String) (contents : List Nat) : BlobStore :=
  if (st.map Prod.fst).contains path then
    st.map (fun p => if p.1 = path then (path, contents) else p)
  else st ++ [(path, contents)]

/-- `os.path.join(BLOBS_DIR, h[:2], h[2:] + ".enc")` with
`BLOBS_DIR = "blobs/sha256"`. -/
def blobPath (h : String) : String :=
  "blobs/sha256/" ++ h.take 2 ++ "/" ++ h.drop 2 ++ ".enc"

/-- `write_blob(ciphertext)` (vault.py lines 171-181): hash, store at the
sharded path, return the hex hash. -/
def write_blob (st : BlobStore) (ciphertext : List Nat) : String × BlobStore :=
  let h := sha256_hex ciphertext
  (h, storeSet st (blobPath h) ciphertext)

/-- `read_blob_by_hash(h)` (vault.py lines 184-187). -/
def read_blob_by_hash (st : BlobStore) (h : String) : Except VaultErr (List Nat) :=
  match storeGet st (blobPath h) with
  | some c => .ok c
  | none => .error .notFound

/-! ## JSON values (model of the Python dict/list/str/int/None payloads)

Payloads are dynamically typed Python values serialized with `json.dumps`
and read back with `json.loads`.  `JVal` models the value universe; Python
dicts are association lists in insertion order with unique keys.
`encodeJson`/`decodeJson` are a modelled stand-in for the
`json.dumps`/`json.loads` pair: an injective executable serialization with
a matching parser.  None of the repository's claims depend on the concrete
JSON text format, only on the serializer being invertible. -/

inductive JVal where
  | null
  | bool (b : Bool)
  | num (n : Int)
  | str (s : String)
  | arr (items : List JVal)
  | obj (fields : List (String × JVal))
deriving Repr

mutual

/-- Boolean equality on payload values (for decidable equality). -/
def JVal.beq : JVal → JVal → Bool
  | .null, .null => true
  | .bool a, .bool b => a == b
  | .num a, .num b => a == b
  | .str a, .str b => a == b
  | .arr xs, .arr ys => JVal.beqList xs ys
  | .obj fs, .obj gs => JVal.beqFields fs gs
  | _, _ => false

def JVal.beqList : List JVal → List JVal → Bool
  | [], [] => true
  | x :: xs, y :: ys => JVal.beq x y && JVal.beqList xs ys
  | _, _ => false

def JVal.beqFields : List (String × JVal) → List (String × JVal) → Bool
  | [], [] => true
  | (k, v) :: fs, (l, w) :: gs => k == l && JVal.beq v w && JVal.beqFields fs gs
  | _, _ => false

end

mutual

def JVal.eq_of_beq : ∀ (a b : JVal), JVal.beq a b = true → a = b
  | .null, .null, _ => rfl
  | .bool a, .bool b, h => by
      have h2 : a = b := by simpa [JVal.beq] using h
      rw [h2]
  | .num a, .num b, h => by
      have h2 : a = b := by simpa [JVal.beq] using h
      rw [h2]
  | .str a, .str b, h => by
      have h2 : a = b := by simpa [JVal.beq] using h
      rw [h2]
  | .arr xs, .arr ys, h => by
      have h2 : xs = ys := JVal.eqList_of_beqList xs ys (by simpa [JVal.beq] using h)
      rw [h2]
  | .obj fs, .obj gs, h => by
      have h2 : fs = gs :=
        JVal.eqFields_of_beqFields fs gs (by simpa [JVal.beq] using h)
      rw [h2]
  | .null, .bool _, h => nomatch h
  | .null, .num _, h => nomatch h
  | .null, .str _, h => nomatch h
  | .null, .arr _, h => nomatch h
  | .null, .obj _, h => nomatch h
  | .bool _, .null, h => nomatch h
  | .bool _, .num _, h => nomatch h
  | .bool _, .str _, h => nomatch h
  | .bool _, .arr _, h => nomatch h
  | .bool _, .obj _, h => nomatch h
  | .num _, .null, h => nomatch h
  | .num _, .bool _, h => nomatch h
  | .num _, .str _, h => nomatch h
  | .num _, .arr _, h => nomatch h
  | .num _, .obj _, h => nomatch h
  | .str _, .null, h => nomatch h
  | .str _, .bool _, h => nomatch h
  | .str _, .num _, h => nomatch h
  | .str _, .arr _, h => nomatch h
  | .str _, .obj _, h => nomatch h
  | .arr _, .null, h => nomatch h
  | .arr _, .bool _, h => nomatch h
  | .arr _, .num _, h => nomatch h
  | .arr _, .str _, h => nomatch h
  | .arr _, .obj _, h => nomatch h
  | .obj _, .null, h => nomatch h
  | .obj _, .bool _, h => nomatch h
  | .obj _, .num _, h => nomatch h
  | .obj _, .str _, h => nomatch h
  | .obj _, .arr _, h => nomatch h

def JVal.eqList_of_beqList :
    ∀ (xs ys : List JVal), JVal.beqList xs ys = true → xs = ys
  | [], [], _ => rfl
  | [], _ :: _, h => nomatch h
  | _ :: _, [], h => nomatch h
  | x :: xs, y :: ys, h => by
      have h2 : JVal.beq x y = true ∧ JVal.beqList xs ys = true := by
        simpa [JVal.beqList, Bool.and_eq_true] using h
      rw [JVal.eq_of_beq x y h2.1, JVal.eqList_of_beqList xs ys h2.2]

def JVal.eqFields_of_beqFields :
    ∀ (fs gs : List (String × JVal)), JVal.beqFields fs gs = true → fs = gs
  | [], [], _ => rfl
  | [], _ :: _, h => nomatch h
  | _ :: _, [], h => nomatch h
  | (k, v) :: fs, (l, w) :: gs, h => by
      have h2 : (k == l) = true ∧ JVal.beq v w = true
          ∧ JVal.beqFields fs gs = true := by
        simpa [JVal.beqFields, Bool.and_eq_true, and_assoc] using h
      have hk : k = l := by simpa using h2.1
      rw [hk, JVal.eq_of_beq v w h2.2.1, JVal.eqFields_of_beqFields fs gs h2.2.2]

end

mutual

def JVal.beq_refl : ∀ (a : JVal), JVal.beq a a = true
  | .null => rfl
  | .bool a => by simp [JVal.beq]
  | .num a => by simp [JVal.beq]
  | .str a => by simp [JVal.beq]
  | .arr xs => by simpa [JVal.beq] using JVal.beqList_refl xs
  | .obj fs => by simpa [JVal.beq] using JVal.beqFields_refl fs

def JVal.beqList_refl : ∀ (xs : List JVal), JVal.beqList xs xs = true
  | [] => rfl
  | x :: xs => by
      simp [JVal.beqList, JVal.beq_refl x, JVal.beqList_refl xs]

def JVal.beqFields_refl :
    ∀ (fs : List (String × JVal)), JVal.beqFields fs fs = true
  | [] => rfl
  | (k, v) :: fs => by
      simp [JVal.beqFields, JVal.beq_refl v, JVal.beqFields_refl fs]

end

instance : DecidableEq JVal := fun a b =>
  if h : JVal.beq a b = true then isTrue (JVal.eq_of_beq a b h)
  else isFalse (fun he => h (he ▸ JVal.beq_refl a))

instance {ε α : Type} [DecidableEq ε] [DecidableEq α] :
    DecidableEq (Except ε α) := fun x y =>
  match x, y with
  | .ok a, .ok b =>
    match decEq a b with
    | isTrue h => isTrue (by rw [h])
    | isFalse h => isFalse (fun hh => h (Except.ok.inj hh))
  | .error e, .error f =>
    match decEq e f with
    | isTrue h => isTrue (by rw [h])
    | isFalse h => isFalse (fun hh => h (Except.error.inj hh))
  | .ok _, .error _ => isFalse (fun hh => Except.noConfusion hh)
  | .error _, .ok _ => isFalse (fun hh => Except.noConfusion hh)

/-- Base-256 little-endian digits, with fuel (`fuel = n` always suffices
because the quotient shrinks on every step). -/
def natDigitsGo : Nat → Nat → List Nat
  | 0, _ => []
  | fuel + 1, n => if n = 0 then [] else (n % 256) :: natDigitsGo fuel (n / 256)

/-- Base-256 little-endian digits of a natural number (empty for 0). -/
def natDigits (n : Nat) : List Nat := natDigitsGo (n + 1) n

/-- Length-prefixed base-256 encoding of a natural number. -/
def encNat (n : Nat) : List Nat :=
  let ds := natDigits n
  ds.length :: ds

/-- Inverse of `encNat` on a byte stream. -/
def decNat : List Nat → Option (Nat × List Nat)
  | [] => none
  | len :: rest =>
    if len ≤ rest.length then
      some ((rest.take len).foldr (fun d acc => acc * 256 + d) 0, rest.drop len)
    else none

/-- Length-prefixed encoding of a string as its character code points. -/
def encStr (s : String) : List Nat :=
  s.data.length :: s.data.foldr (fun c acc => encNat c.toNat ++ acc) []

/-- Decode `n` code points from the stream. -/
def decStrChars : Nat → List Nat → Option (List Char × List Nat)
  | 0, bs => some ([], bs)
  | n + 1, bs =>
    match decNat bs with
    | some (cp, rest) =>
      match decStrChars n rest with
      | some (cs, rest2) => some (Char.ofNat cp :: cs, rest2)
      | none => none
    | none => none

/-- Inverse of `encStr` on a byte stream. -/
def decStr (bs : List Nat) : Option (String × List Nat) :=
  match bs with
  | [] => none
  | n :: rest =>
    match decStrChars n rest with
    | some (cs, rest2) => some (⟨cs⟩, rest2)
    | none => none

mutual

/-- Serializer for `JVal` (modelled `json.dumps`). -/
def encodeJson : JVal → List Nat
  | .null => [0]
  | .bool b => [1, if b then 1 else 0]
  | .num i => 2 :: (if i < 0 then 1 else 0) :: encNat i.natAbs
  | .str s => 3 :: encStr s
  | .arr xs => 4 :: (encNat xs.length ++ encodeJsonList xs)
  | .obj fs => 5 :: (encNat fs.length ++ encodeJsonFields fs)

def encodeJsonList : List JVal → List Nat
  | [] => []
  | x :: xs => encodeJson x ++ encodeJsonList xs

def encodeJsonFields : List (String × JVal) → List Nat
  | [] => []
  | (k, v) :: fs => encStr k ++ encodeJson v ++ encodeJsonFields fs

end

mutual

/-- Fuel-indexed parser for `JVal` (modelled `json.loads`). -/
def decJ : Nat → List Nat → Option (JVal × List Nat)
  | 0, _ => none
  | fuel + 1, bs =>
    match bs with
    | 0 :: r => some (.null, r)
    | 1 :: b :: r => some (.bool (b == 1), r)
    | 2 :: sg :: r =>
      match decNat r with
      | some (n, r2) => some (.num (if sg == 1 then -(n : Int) else (n : Int)), r2)
      | none => none
    | 3 :: r =>
      match decStr r with
      | some (s, r2) => some (.str s, r2)
      | none => none
    | 4 :: r =>
      match decNat r with
      | some (n, r2) =>
        match decJList fuel n r2 with
        | some (xs, r3) => some (.arr xs, r3)
        | none => none
      | none => none
    | 5 :: r =>
      match decNat r with
      | some (n, r2) =>
        match decJFields fuel n r2 with
        | some (fs, r3) => some (.obj fs, r3)
        | none => none
      | none => none
    | _ => none

def decJList : Nat → Nat → List Nat → Option (List JVal × List Nat)
  | _, 0, bs => some ([], bs)
  | 0, _ + 1, _ => none
  | fuel + 1, n + 1, bs =>
    match decJ fuel bs with
    | some (x, r) =>
      match decJList fuel n r with
      | some (xs, r2) => some (x :: xs, r2)
      | none => none
    | none => none

def decJFields : Nat → Nat → List Nat → Option (List (String × JVal) × List Nat)
  | _, 0, bs => some ([], bs)
  | 0, _ + 1, _ => none
  | fuel + 1, n + 1, bs =>
    match decStr bs with
    | some (k, r) =>
      match decJ fuel r with
      | some (v, r2) =>
        match decJFields fuel n r2 with
        | some (fs, r3) => some ((k, v) :: fs, r3)
        | none => none
      | none => none
    | none => none

end

/-- Modelled `json.loads`: parse the whole byte string or fail. -/
def decodeJson (bs : List Nat) : Option JVal :=
  match decJ (bs.length + 1) bs with
  | some (v, []) => some v
  | _ => none

/-! ## Python dict operations (shallow merge, vault.py lines 413-416) -/

/-- `d[k]` as an option (first binding wins; Python dicts have unique keys). -/
def lookupJ (obj : List (String × JVal)) (k : String) : Option JVal :=
  (obj.find? (fun p => p.1 = k)).map (·.2)

/-- `d[k] = v`: replace in place when the key exists, else append. -/
def setKey (obj : List (String × JVal)) (k : String) (v : JVal) :
    List (String × JVal) :=
  if (obj.map Prod.fst).contains k then
    obj.map (fun p => if p.1 = k then (k, v) else p)
  else obj ++ [(k, v)]

/-- `v is None`. -/
def JVal.isNull : JVal → Bool
  | .null => true
  | _ => false

/-- `obj.update({k: v for k, v in updates.items() if v is not None})`:
the shallow merge of non-null update values into the stored payload. -/
def dictUpdate (obj updates : List (String × JVal)) : List (String × JVal) :=
  updates.foldl
    (fun acc kv => if kv.2.isNull then acc else setKey acc kv.1 kv.2)
    obj

/-- `pii.get(k)`: `None` when the key is absent. -/
def piiGet (pii : List (String × JVal)) (k : String) : JVal :=
  (lookupJ pii k).getD .null

/-- `pii.get(k, d)`: the stored value when the key is present (even if it
is `None`), else the default. -/
def piiGetD (pii : List (String × JVal)) (k : String) (d : JVal) : JVal :=
  (lookupJ pii k).getD d

/-! ## Payload construction and dataclass normalization -/

/-- `asdict(IdentityBlob(...))` as built by `create_identity`
(vault.py lines 355-368): all twelve fields in declaration order. -/
def identityObj (item_id name : String) (pii : List (String × JVal)) (now : Int) :
    List (String × JVal) :=
  [("schema", .str "vault.identity@1"),
   ("item_id", .str item_id),
   ("name", .str name),
   ("dob", piiGet pii "dob"),
   ("email", piiGet pii "email"),
   ("phone", piiGet pii "phone"),
   ("address", piiGet pii "address"),
   ("national_id", piiGet pii "national_id"),
   ("tags", piiGetD pii "tags" (.arr [])),
   ("notes", piiGet pii "notes"),
   ("site_specific", piiGetD pii "site_specific" (.obj [])),
   ("audit", .obj [("created_at", .num now), ("updated_at", .num now)])]

/-- `None`-able string arguments of `create_secret`. -/
def optStr : Option String → JVal
  | some s => .str s
  | none => .null

/-- `asdict(SecretBlob(...))` as built by `create_secret`
(vault.py lines 438-448). -/
def secretObj (secret_id : String) (secret_type : String)
    (username password totp_uri notes : Option String) (now : Int) :
    List (String × JVal) :=
  [("schema", .str "vault.secret@1"),
   ("secret_id", .str secret_id),
   ("type", .str secret_type),
   ("username", optStr username),
   ("password", optStr password),
   ("totp_uri", optStr totp_uri),
   ("notes", optStr notes),
   ("history", .arr []),
   ("audit", .obj [("created_at", .num now), ("updated_at", .num now)])]

def identityFieldNames : List String :=
  ["schema", "item_id", "name", "dob", "email", "phone", "address",
   "national_id", "tags", "notes", "site_specific", "audit"]

def identityRequired : List String := ["schema", "item_id", "name"]

def secretFieldNames : List String :=
  ["schema", "secret_id", "type", "username", "password", "totp_uri",
   "notes", "history", "audit"]

def secretRequired : List String :=
  ["schema", "secret_id", "type", "username", "password"]

/-- `IdentityBlob(**obj)`: succeeds when every key of `obj` is a dataclass
field and every field without a default is present; absent optional fields
take their `None` defaults.  Fields are normalized to declaration order,
matching the dataclass instance. -/
def blobOfObj (fieldNames required : List String)
    (obj : List (String × JVal)) : Option (List (String × JVal)) :=
  if (obj.map Prod.fst).all (fun k => fieldNames.contains k)
      && required.all (fun k => (obj.map Prod.fst).contains k) then
    some (fieldNames.map (fun f => (f, piiGet obj f)))
  else none

/-! ## Index rows and vault state (vault.py lines 193-233, 318-341)

Rows mirror the ORM models.  `domain` and `title` are `JVal` because
`update_identity` assigns whatever Python value appears in `updates`
directly to those columns.  `version` is optional, mirroring a nullable
integer column read by `item.version or 1`. -/

structure ItemRow where
  item_id : String
  domain : JVal
  title : JVal
  detail_blob_hash : String
  detail_dek_wrap : List Nat
  has_attachments : Int
  site_type : String
  trust_level : Int
  created_at : Int
  updated_at : Int
  version : Option Int
  tombstoned : Int
deriving DecidableEq, Repr

structure SecretRow where
  secret_id : String
  item_id : String
  blob_hash : String
  dek_wrap : List Nat
  secret_type : String
  created_at : Int
  updated_at : Int
deriving DecidableEq, Repr

structure FileRow where
  file_id : String
  item_id : String
  blob_hash : String
  dek_wrap : List Nat
  filename : String
  mime_type : String
  size_bytes : Int
  created_at : Int
  updated_at : Int
deriving DecidableEq, Repr

/-- The stateful `Vault` object: MK (when unlocked), salt, the three index
tables, the blob directory and the randomness stream. -/
structure VaultState where
  ofParts ::
  mk : Option (List Nat)
  salt : List Nat
  items : List ItemRow
  secretRows : List SecretRow
  fileRows : List FileRow
  blobs : BlobStore
  rng : Rng
deriving DecidableEq

/-- `session.get(Item, item_id)`: primary-key lookup. -/
def findItem (items : List ItemRow) (item_id : String) : Option ItemRow :=
  items.find? (fun it => it.item_id = item_id)

def findSecret (rows : List SecretRow) (secret_id : String) : Option SecretRow :=
  rows.find? (fun r => r.secret_id = secret_id)

def findFile (rows : List FileRow) (file_id : String) : Option FileRow :=
  rows.find? (fun r => r.file_id = file_id)

/-- In-place ORM mutation of the row with the given primary key. -/
def replaceItem (items : List ItemRow) (item_id : String) (r : ItemRow) :
    List ItemRow :=
  items.map (fun it => if it.item_id = item_id then r else it)

def replaceSecret (rows : List SecretRow) (secret_id : String) (r : SecretRow) :
    List SecretRow :=
  rows.map (fun s => if s.secret_id = secret_id then r else s)

/-! ## Lifecycle operations (vault.py lines 342-350) -/

def unlock (s : VaultState) (password : String) (use_argon2 haveArgon2 : Bool) :
    VaultState :=
  { s with mk := some (derive_master_key password s.salt use_argon2 haveArgon2) }

def lock (s : VaultState) : VaultState :=
  { s with mk := none }

/-! ## Shared blob pipeline (vault.py lines 246-269) -/

/-- `make_dek()`: 32 random bytes. -/
def make_dek (r : Rng) : List Nat × Rng := tokenBytes r 32

/-- `encrypt_and_store_blob(mk, plaintext_bytes, aad)`: fresh DEK, AEAD
encrypt, content-addressed store, wrap the DEK.  Returns
(blob hash, wrapped DEK, new store, new rng). -/
def encrypt_and_store_blob (mk plaintext_bytes : List Nat)
    (aad : Option (List Nat)) (st : BlobStore) (r : Rng) :
    String × List Nat × BlobStore × Rng :=
  let (dek, r1) := make_dek r
  let ((ciphertext, _nonce), r2) := aead_encrypt dek plaintext_bytes aad r1
  let (blob_hash, st2) := write_blob st ciphertext
  let (wrapped_dek, r3) := wrap_dek mk dek aad r2
  (blob_hash, wrapped_dek, st2, r3)

/-- `decrypt_blob_with_wrapped_dek(mk, blob_hash, wrapped_dek, aad)`. -/
def decrypt_blob_with_wrapped_dek (mk : List Nat) (st : BlobStore)
    (blob_hash : String) (wrapped_dek : List Nat) (aad : Option (List Nat)) :
    Except VaultErr (List Nat) :=
  match read_blob_by_hash st blob_hash with
  | .error e => .error e
  | .ok ciphertext =>
    match unwrap_dek mk wrapped_dek aad with
    | .error e => .error e
    | .ok dek => aead_decrypt dek ciphertext aad

/-! ## Record operations (vault.py lines 353-556)

Each operation takes the current `VaultState`, the wall-clock timestamp
`now` (the source calls `now_ms()` once or more per operation; the calls
within one operation are modelled by a single value), and its Python
arguments.  Failures return `Except.error`; in the two corners where the
source raises *after* `session.commit()` (a duplicate primary key detected
at commit after the blob write, and a `TypeError` from dataclass
construction after an update committed), the model reports the error
without the partial state change. -/

/-- `(item.version or 1) + 1` (vault.py line 431). -/
def verBump : Option Int → Int
  | none => 2
  | some v => (if v = 0 then 1 else v) + 1

/-- `obj.setdefault("audit", {}); obj["audit"]["updated_at"] = now_ms()`
(vault.py lines 415-416).  A present non-dict `audit` value raises
`TypeError` in Python. -/
def auditTouch (obj : List (String × JVal)) (now : Int) :
    Except VaultErr (List (String × JVal)) :=
  match lookupJ obj "audit" with
  | none => .ok (setKey obj "audit" (.obj [("updated_at", .num now)]))
  | some (.obj m) => .ok (setKey obj "audit" (.obj (setKey m "updated_at" (.num now))))
  | some _ => .error .typeError

/-- `json.loads` into a dict followed by `IdentityBlob(**obj)`
(vault.py lines 397-398). -/
def identityFromBytes (pt : List Nat) : Except VaultErr (List (String × JVal)) :=
  match decodeJson pt with
  | some (.obj o) =>
    match blobOfObj identityFieldNames identityRequired o with
    | some p => .ok p
    | none => .error .typeError
  | some _ => .error .typeError
  | none => .error .jsonError

/-- `json.loads` into a dict followed by `SecretBlob(**obj)`
(vault.py lines 472-473). -/
def secretFromBytes (pt : List Nat) : Except VaultErr (List (String × JVal)) :=
  match decodeJson pt with
  | some (.obj o) =>
    match blobOfObj secretFieldNames secretRequired o with
    | some p => .ok p
    | none => .error .typeError
  | some _ => .error .typeError
  | none => .error .jsonError

/-- `json.loads` into a plain dict (update paths, vault.py lines 411, 486). -/
def dictFromBytes (pt : List Nat) : Except VaultErr (List (String × JVal)) :=
  match decodeJson pt with
  | some (.obj o) => .ok o
  | some _ => .error .typeError
  | none => .error .jsonError

/-- `Vault.create_identity` (vault.py lines 353-388). -/
def create_identity (s : VaultState) (now : Int) (item_id domain name : String)
    (pii : List (String × JVal)) (site_type : String) (trust_level : Int) :
    Except VaultErr (VaultState × String) :=
  match s.mk with
  | none => .error .locked
  | some mk =>
    let obj := identityObj item_id name pii now
    let plaintext := encodeJson (.obj obj)
    let esb :=
      encrypt_and_store_blob mk plaintext (some (utf8Bytes item_id)) s.blobs s.rng
    match findItem s.items item_id with
    | some _ => .error .integrityError
    | none =>
      .ok ({ s with
              items := s.items ++
                [{ item_id := item_id, domain := .str domain, title := .str name,
                   detail_blob_hash := esb.1, detail_dek_wrap := esb.2.1,
                   has_attachments := 0, site_type := site_type,
                   trust_level := trust_level, created_at := now,
                   updated_at := now, version := some 1, tombstoned := 0 }],
              blobs := esb.2.2.1, rng := esb.2.2.2 }, esb.1)

/-- `Vault.load_identity` (vault.py lines 390-398). -/
def load_identity (s : VaultState) (item_id : String) :
    Except VaultErr (List (String × JVal)) :=
  match s.mk with
  | none => .error .locked
  | some mk =>
    match findItem s.items item_id with
    | none => .error .notFound
    | some it =>
      match decrypt_blob_with_wrapped_dek mk s.blobs it.detail_blob_hash
        it.detail_dek_wrap (some (utf8Bytes item_id)) with
      | .error e => .error e
      | .ok pt => identityFromBytes pt

/-- `if "name" in updates and updates["name"] is not None: item.title = updates["name"]`
(vault.py lines 419-422): keep the column unless the update carries a
non-null value for the field. -/
def syncCol (old : JVal) (upd : Option JVal) : JVal :=
  match upd with
  | some .null => old
  | none => old
  | some v => v

/-- `Vault.update_identity` (vault.py lines 400-433). -/
def update_identity (s : VaultState) (now : Int) (item_id : String)
    (updates : List (String × JVal)) :
    Except VaultErr (VaultState × List (String × JVal)) :=
  match s.mk with
  | none => .error .locked
  | some mk =>
    match findItem s.items item_id with
    | none => .error .notFound
    | some it =>
      match decrypt_blob_with_wrapped_dek mk s.blobs it.detail_blob_hash
        it.detail_dek_wrap (some (utf8Bytes item_id)) with
      | .error e => .error e
      | .ok pt =>
        match dictFromBytes pt with
        | .error e => .error e
        | .ok obj =>
          match auditTouch (dictUpdate obj updates) now with
          | .error e => .error e
          | .ok touched =>
            let title2 : JVal := syncCol it.title (lookupJ updates "name")
            let domain2 : JVal := syncCol it.domain (lookupJ updates "domain")
            let new_blob := encodeJson (.obj touched)
            let esb :=
              encrypt_and_store_blob mk new_blob (some (utf8Bytes item_id))
                s.blobs s.rng
            let it2 := { it with
              title := title2, domain := domain2,
              detail_blob_hash := esb.1, detail_dek_wrap := esb.2.1,
              updated_at := now, version := some (verBump it.version) }
            match blobOfObj identityFieldNames identityRequired touched with
            | none => .error .typeError
            | some payload =>
              .ok ({ s with items := replaceItem s.items item_id it2,
                            blobs := esb.2.2.1, rng := esb.2.2.2 }, payload)

/-- `Vault.create_secret` (vault.py lines 436-463). -/
def create_secret (s : VaultState) (now : Int) (secret_id item_id : String)
    (secret_type : String) (username password : Option String)
    (totp_uri notes : Option String) :
    Except VaultErr (VaultState × String) :=
  match s.mk with
  | none => .error .locked
  | some mk =>
    let obj := secretObj secret_id secret_type username password totp_uri notes now
    let plaintext := encodeJson (.obj obj)
    let esb :=
      encrypt_and_store_blob mk plaintext (some (utf8Bytes secret_id)) s.blobs s.rng
    match findSecret s.secretRows secret_id with
    | some _ => .error .integrityError
    | none =>
      .ok ({ s with
              secretRows := s.secretRows ++
                [{ secret_id := secret_id, item_id := item_id,
                   blob_hash := esb.1, dek_wrap := esb.2.1,
                   secret_type := secret_type, created_at := now,
                   updated_at := now }],
              blobs := esb.2.2.1, rng := esb.2.2.2 }, esb.1)

/-- `Vault.load_secret` (vault.py lines 465-473). -/
def load_secret (s : VaultState) (secret_id : String) :
    Except VaultErr (List (String × JVal)) :=
  match s.mk with
  | none => .error .locked
  | some mk =>
    match findSecret s.secretRows secret_id with
    | none => .error .notFound
    | some sec =>
      match decrypt_blob_with_wrapped_dek mk s.blobs sec.blob_hash
        sec.dek_wrap (some (utf8Bytes secret_id)) with
      | .error e => .error e
      | .ok pt => secretFromBytes pt

/-- `Vault.update_secret` (vault.py lines 475-500). -/
def update_secret (s : VaultState) (now : Int) (secret_id : String)
    (updates : List (String × JVal)) :
    Except VaultErr (VaultState × List (String × JVal)) :=
  match s.mk with
  | none => .error .locked
  | some mk =>
    match findSecret s.secretRows secret_id with
    | none => .error .notFound
    | some sec =>
      match decrypt_blob_with_wrapped_dek mk s.blobs sec.blob_hash
        sec.dek_wrap (some (utf8Bytes secret_id)) with
      | .error e => .error e
      | .ok pt =>
        match dictFromBytes pt with
        | .error e => .error e
        | .ok obj =>
          match auditTouch (dictUpdate obj updates) now with
          | .error e => .error e
          | .ok touched =>
            let new_blob := encodeJson (.obj touched)
            let esb :=
              encrypt_and_store_blob mk new_blob (some (utf8Bytes secret_id))
                s.blobs s.rng
            let sec2 := { sec with
              blob_hash := esb.1, dek_wrap := esb.2.1, updated_at := now }
            match blobOfObj secretFieldNames secretRequired touched with
            | none => .error .typeError
            | some payload =>
              .ok ({ s with
                      secretRows := replaceSecret s.secretRows secret_id sec2,
                      blobs := esb.2.2.1, rng := esb.2.2.2 }, payload)

/-- `Vault.add_file` (vault.py lines 503-524).  The `description` argument
is accepted and never stored, exactly as in the source.  The
`has_attachments`/`updated_at` update is a bulk `UPDATE ... WHERE`, so it
silently affects zero rows when the item does not exist. -/
def add_file (s : VaultState) (now : Int) (file_id item_id : String)
    (filename mime_type : String) (file_bytes : List Nat)
    (description : Option String := none) :
    Except VaultErr (VaultState × String) :=
  match s.mk with
  | none => .error .locked
  | some mk =>
    let esb :=
      encrypt_and_store_blob mk file_bytes (some (utf8Bytes file_id)) s.blobs s.rng
    match findFile s.fileRows file_id with
    | some _ => .error .integrityError
    | none =>
      .ok ({ s with
              fileRows := s.fileRows ++
                [{ file_id := file_id, item_id := item_id,
                   blob_hash := esb.1, dek_wrap := esb.2.1,
                   filename := filename, mime_type := mime_type,
                   size_bytes := (file_bytes.length : Int), created_at := now,
                   updated_at := now }],
              items := s.items.map (fun it =>
                if it.item_id = item_id then
                  { it with has_attachments := 1, updated_at := now }
                else it),
              blobs := esb.2.2.1, rng := esb.2.2.2 }, esb.1)

/-- `Vault.load_file` (vault.py lines 526-533). -/
def load_file (s : VaultState) (file_id : String) :
    Except VaultErr (List Nat) :=
  match s.mk with
  | none => .error .locked
  | some mk =>
    match findFile s.fileRows file_id with
    | none => .error .notFound
    | some fr =>
      decrypt_blob_with_wrapped_dek mk s.blobs fr.blob_hash fr.dek_wrap
        (some (utf8Bytes file_id))

/-- Descending insertion by `updated_at` (model of `ORDER BY updated_at DESC`;
the relative order of ties is not specified by the underlying engine). -/
def insertByUpdated (r : ItemRow) : List ItemRow → List ItemRow
  | [] => [r]
  | x :: xs =>
    if x.updated_at < r.updated_at then r :: x :: xs else x :: insertByUpdated r xs

def sortByUpdatedDesc (l : List ItemRow) : List ItemRow :=
  l.foldr insertByUpdated []

/-- `Vault.list_items` (vault.py lines 536-548).  Note: the source performs
no lock check here. -/
def list_items (s : VaultState) : Except VaultErr (List JVal) :=
  .ok ((sortByUpdatedDesc s.items).map (fun i =>
    .obj [("item_id", .str i.item_id), ("domain", i.domain), ("title", i.title),
          ("created_at", .num i.created_at), ("updated_at", .num i.updated_at)]))

/-- `Vault.list_secrets_for_item` (vault.py lines 550-556).  Note: the
source performs no lock check here. -/
def list_secrets_for_item (s : VaultState) (item_id : String) :
    Except VaultErr (List JVal) :=
  .ok ((s.secretRows.filter (fun r => r.item_id = item_id)).map (fun r =>
    .obj [("secret_id", .str r.secret_id), ("secret_type", .str r.secret_type)]))

/-! ## Secure password generator (profile_secrets/generator.py) -/

def string_ascii_uppercase : List Char := "ABCDEFGHIJKLMNOPQRSTUVWXYZ".data

def string_ascii_lowercase : List Char := "abcdefghijklmnopqrstuvwxyz".data

def string_digits : List Char := "0123456789".data

/-- `symbols = "!@#$%^&*()-_=+[]\x7b\x7d<>?/"` (generator.py line 20). -/
def generatorSymbols : List Char := "!@#$%^&*()-_=+[]\x7b\x7d<>?/".data

/-- `secrets.choice(seq)`: pick one element using one draw from the RNG. -/
def chooseFrom (cs : List Char) (r : Rng) : Char × Rng :=
  (cs.getD (rngByte r.seed r.pos % cs.length) 'A', ⟨r.seed, r.pos + 1⟩)

/-- The fill loop (`for _ in range(remaining_length)`). -/
def fillChars (all : List Char) : Nat → Rng → List Char × Rng
  | 0, r => ([], r)
  | n + 1, r =>
    let c := (chooseFrom all r).1
    let res := fillChars all n (chooseFrom all r).2
    (c :: res.1, res.2)

/-- Model of `random.SystemRandom().shuffle`: repeatedly draw one index
and move that element to the front.  Any RNG-driven uniform permutation is
a faithful model of the library shuffle; the claims use only that the
result is a permutation of the input. -/
def shuffleGo : Nat → Rng → List Char → List Char × Rng
  | 0, r, xs => (xs, r)
  | _ + 1, r, [] => ([], r)
  | fuel + 1, r, x :: xs =>
    let j := rngByte r.seed r.pos % (x :: xs).length
    let c := (x :: xs).getD j x
    let res := shuffleGo fuel ⟨r.seed, r.pos + 1⟩ ((x :: xs).erase c)
    (c :: res.1, res.2)

def shuffleR (r : Rng) (xs : List Char) : List Char × Rng :=
  shuffleGo xs.length r xs

/-- `generate_secure_password(length)` (generator.py lines 6-41). -/
def generate_secure_password (length : Nat) (r : Rng) : Except VaultErr String :=
  if length < 8 then .error .invalidArgument
  else
    let u := (chooseFrom string_ascii_uppercase r).1
    let r1 := (chooseFrom string_ascii_uppercase r).2
    let lo := (chooseFrom string_ascii_lowercase r1).1
    let r2 := (chooseFrom string_ascii_lowercase r1).2
    let d := (chooseFrom string_digits r2).1
    let r3 := (chooseFrom string_digits r2).2
    let sy := (chooseFrom generatorSymbols r3).1
    let r4 := (chooseFrom generatorSymbols r3).2
    let all_chars := string_ascii_uppercase ++ string_ascii_lowercase
      ++ string_digits ++ generatorSymbols
    let fill := fillChars all_chars (length - 4) r4
    let shuffled := shuffleR fill.2 ([u, lo, d, sy] ++ fill.1)
    .ok ⟨shuffled.1⟩

/-- A locked vault holding one Item and one Secret row. -/
def lockedDemoState : VaultState :=
  ⟨none, List.replicate 16 7,
   [{ item_id := "item-1", domain := .str "example.com", title := .str "Alice",
      detail_blob_hash := "అ", detail_dek_wrap := [], has_attachments := 0,
      site_type := "generic", trust_level := 0, created_at := 1,
      updated_at := 2, version := some 1, tombstoned := 0 }],
   [{ secret_id := "sec-1", item_id := "item-1", blob_hash := "అ",
      dek_wrap := [], secret_type := "password", created_at := 1,
      updated_at := 2 }],
   [], [], ⟨11, 0⟩⟩

/-- N successive `update_identity` calls on the same item, each feeding the
next state. -/
def updateChain (s : VaultState) (now : Int) (item_id : String) :
    List (List (String × JVal)) → Except VaultErr VaultState
  | [] => .ok s
  | u :: us =>
    match update_identity s now item_id u with
    | .ok (s2, _) => updateChain s2 now item_id us
    | .error e => .error e

/-! ## Concrete demonstration states (for counterexamples and witnesses) -/

def demoMk : List Nat := List.replicate 32 3

def unlockedDemoState : VaultState :=
  ⟨some demoMk, List.replicate 16 7, [], [], [], [],
   ⟨23, 0⟩⟩

def c6create : Except VaultErr (VaultState × String) :=
  create_identity unlockedDemoState 5 "item-1" "d" "Alice"
    [("email", JVal.str "a@e.com")] "generic" 0

def c6s2 : VaultState :=
  match c6create with
  | .ok p => p.1
  | .error _ => unlockedDemoState

def c6bh : String :=
  match c6create with
  | .ok p => p.2
  | .error _ => ""

def c6updates : List (List (String × JVal)) :=
  [[("phone", JVal.str "+2")]]

def c6s3 : VaultState :=
  match updateChain c6s2 6 "item-1" c6updates with
  | .ok s => s
  | .error _ => c6s2

def c10create : Except VaultErr (VaultState × String) :=
  create_identity unlockedDemoState 5 "item-1" "d" "Alice"
    [("email", JVal.str "a@e.com")] "generic" 0

def c10s2 : VaultState :=
  match c10create with
  | .ok p => p.1
  | .error _ => unlockedDemoState

def c10bh : String :=
  match c10create with
  | .ok p => p.2
  | .error _ => ""

def dummyItemRow : ItemRow :=
  { item_id := "", domain := .null, title := .null, detail_blob_hash := "",
    detail_dek_wrap := [], has_attachments := 0, site_type := "",
    trust_level := 0, created_at := 0, updated_at := 0, version := none,
    tombstoned := 0 }

def c10it : ItemRow :=
  match findItem c10s2.items "item-1" with
  | some it => it
  | none => dummyItemRow

def c10upd : Except VaultErr (VaultState × List (String × JVal)) :=
  update_identity c10s2 6 "item-1" [("name", JVal.str "Bob")]

def c10s3 : VaultState :=
  match c10upd with
  | .ok p => p.1
  | .error _ => c10s2

def c10payload : List (String × JVal) :=
  match c10upd with
  | .ok p => p.2
  | .error _ => []

theorem tokenBytes_length (r : Rng) (n : Nat) : (tokenBytes r n).1.length = n := by
  simp [tokenBytes]

theorem utf8EncodeCharM_ne_nil (n : Nat) : utf8EncodeCharM n ≠ [] := by
  unfold utf8EncodeCharM
  split <;> [skip; split <;> [skip; split]] <;> simp

theorem utf8Bytes_ne_nil_of_ne_empty (s : String) (h : s ≠ "") : utf8Bytes s ≠ [] := by
  unfold utf8Bytes
  cases hd : s.data with
  | nil =>
    exact absurd (by cases s with | mk d => simp only at hd; simp [hd]) h
  | cons c cs =>
    simp only [hd, List.foldr_cons]
    intro hcontra
    exact utf8EncodeCharM_ne_nil c.toNat (List.append_eq_nil.mp hcontra).1

theorem xorKs_length (key nonce : List Nat) (i : Nat) (bs : List Nat) :
    (xorKs key nonce i bs).length = bs.length := by
  induction bs generalizing i with
  | nil => rfl
  | cons b bs ih => simp [xorKs, ih]

theorem xorKs_xorKs (key nonce : List Nat) (i : Nat) (bs : List Nat) :
    xorKs key nonce i (xorKs key nonce i bs) = bs := by
  induction bs generalizing i with
  | nil => rfl
  | cons b bs ih =>
    simp only [xorKs, ih, List.cons.injEq, and_true]
    exact Nat.xor_cancel_right _ b

theorem gcmTag_length (key nonce ct aadE : List Nat) :
    (gcmTag key nonce ct aadE).length = 16 := by
  simp [gcmTag]

theorem gcmEncrypt_length (key nonce pt aadE : List Nat) :
    (gcmEncrypt key nonce pt aadE).length = pt.length + 16 := by
  simp [gcmEncrypt, xorKs_length, gcmTag_length]

theorem gcm_roundtrip (key nonce pt aadE : List Nat) :
    gcmDecrypt key nonce (gcmEncrypt key nonce pt aadE) aadE = some pt := by
  have hct : (xorKs key nonce 0 pt).length = pt.length := xorKs_length key nonce 0 pt
  have hlen : (gcmEncrypt key nonce pt aadE).length = pt.length + 16 :=
    gcmEncrypt_length key nonce pt aadE
  unfold gcmDecrypt
  rw [hlen]
  rw [if_neg (by omega)]
  have hsub : pt.length + 16 - 16 = (xorKs key nonce 0 pt).length := by omega
  simp only [gcmEncrypt, hsub]
  rw [List.take_left, List.drop_left]
  rw [if_pos rfl, xorKs_xorKs]

theorem sha256Model_length (data : List Nat) : (sha256Model data).length = 32 := by
  simp [sha256Model]

theorem storeGet_cons (q : String × List Nat) (st : BlobStore) (path : String) :
    storeGet (q :: st) path = if q.1 = path then some q.2 else storeGet st path := by
  by_cases hq : q.1 = path
  · simp [storeGet, List.find?_cons, hq]
  · simp [storeGet, List.find?_cons, hq]

theorem storeGet_storeSet_same (st : BlobStore) (path : String) (c : List Nat) :
    storeGet (storeSet st path c) path = some c := by
  induction st with
  | nil => simp [storeSet, storeGet_cons]
  | cons p ps ih =>
    unfold storeSet
    by_cases hp : p.1 = path
    · rw [if_pos (by simp [hp])]
      simp [List.map_cons, storeGet_cons, hp]
    · by_cases hps : (ps.map Prod.fst).contains path
      · rw [if_pos (by simp only [List.map_cons, List.contains_cons, hps, Bool.or_true])]
        simp only [List.map_cons]
        rw [storeGet_cons]
        simp only [hp, if_false]
        have h2 := ih
        rw [storeSet, if_pos hps] at h2
        exact h2
      · have hps2 : (List.map Prod.fst ps).contains path = false := by
          simpa using hps
        rw [if_neg (by
          simp only [List.map_cons, List.contains_cons, hps2, Bool.or_false, beq_iff_eq]
          exact fun h => hp h.symm)]
        rw [List.cons_append, storeGet_cons, if_neg hp]
        have h2 := ih
        rw [storeSet, if_neg hps] at h2
        exact h2

/-! ## Crypto-layer lemmas -/

theorem aead_encrypt_eq (key pt : List Nat) (aad : Option (List Nat)) (r : Rng) :
    aead_encrypt key pt aad r =
      (((tokenBytes r 12).1 ++ gcmEncrypt key (tokenBytes r 12).1 pt (aadEff aad),
        (tokenBytes r 12).1), (tokenBytes r 12).2) := rfl

theorem aead_decrypt_append (key nonce body : List Nat) (aad : Option (List Nat))
    (hn : nonce.length = 12) :
    aead_decrypt key (nonce ++ body) aad =
      match gcmDecrypt key nonce body (aadEff aad) with
      | some pt => .ok pt
      | none => .error .cryptoFailure := by
  unfold aead_decrypt
  rw [List.take_left' hn, List.drop_left' hn]

theorem aead_roundtrip (key pt : List Nat) (aad : Option (List Nat)) (r : Rng) :
    aead_decrypt key (aead_encrypt key pt aad r).1.1 aad = .ok pt := by
  rw [aead_encrypt_eq]
  rw [aead_decrypt_append key _ _ aad (tokenBytes_length r 12), gcm_roundtrip]

theorem wrap_dek_eq (mk dek : List Nat) (aad : Option (List Nat)) (r : Rng) :
    wrap_dek mk dek aad r =
      ((aead_encrypt (derive_wrap_key mk) dek (some (aadOrWrapInfo aad)) r).1.1,
       (aead_encrypt (derive_wrap_key mk) dek (some (aadOrWrapInfo aad)) r).2) := rfl

theorem unwrap_wrap_roundtrip (mk dek : List Nat) (aad : Option (List Nat)) (r : Rng) :
    unwrap_dek mk (wrap_dek mk dek aad r).1 aad = .ok dek := by
  rw [wrap_dek_eq]
  exact aead_roundtrip (derive_wrap_key mk) dek (some (aadOrWrapInfo aad)) r

/-- Claim C2: for every 32-byte master key and 32-byte DEK and optional AAD,
`unwrap_dek` inverts `wrap_dek`; when no AAD is provided both sides use the
constant AAD `"vault-dek-wrap-v1"`; and `unwrap_dek` fails with
`CryptoFailure` whenever the wrapped blob's tag does not verify. -/
theorem claim_C2_wrap_unwrap_roundtrip (mk dek : List Nat)
    (aad : Option (List Nat)) (r : Rng)
    (hmk : mk.length = 32) (hdek : dek.length = 32) :
    unwrap_dek mk (wrap_dek mk dek aad r).1 aad = .ok dek ∧
    (wrap_dek mk dek none r).1
      = (aead_encrypt (derive_wrap_key mk) dek (some WRAP_INFO) r).1.1 ∧
    (∀ wb : List Nat,
      unwrap_dek mk wb none = aead_decrypt (derive_wrap_key mk) wb (some WRAP_INFO)) ∧
    (∀ wb : List Nat,
      ¬ gcmTagOk (derive_wrap_key mk) wb (aadOrWrapInfo aad) →
        unwrap_dek mk wb aad = .error .cryptoFailure) := by
  refine ⟨unwrap_wrap_roundtrip mk dek aad r, rfl, fun wb => rfl, fun wb hbad => ?_⟩
  unfold unwrap_dek aead_decrypt
  simp only [aadEff, Option.getD_some]
  unfold gcmTagOk at hbad
  rw [not_and_or] at hbad
  unfold gcmDecrypt
  rcases hbad with hshort | htag
  · rw [if_pos (by omega)]
  · by_cases hlen : (wb.drop 12).length < 16
    · rw [if_pos hlen]
    · rw [if_neg hlen, if_neg (fun h => htag h)]

/-- Witness for C2 at concrete 32-byte keys. -/
theorem claim_C2_wrap_unwrap_roundtrip_witness :
    (List.replicate 32 0).length = 32 ∧ (List.replicate 32 1).length = 32 ∧
    (unwrap_dek (List.replicate 32 0)
        (wrap_dek (List.replicate 32 0) (List.replicate 32 1) none ⟨11, 0⟩).1
        none = .ok (List.replicate 32 1) ∧
      (wrap_dek (List.replicate 32 0) (List.replicate 32 1) none ⟨11, 0⟩).1
        = (aead_encrypt (derive_wrap_key (List.replicate 32 0)) (List.replicate 32 1)
            (some WRAP_INFO) ⟨11, 0⟩).1.1 ∧
      (∀ wb : List Nat,
        unwrap_dek (List.replicate 32 0) wb none
          = aead_decrypt (derive_wrap_key (List.replicate 32 0)) wb (some WRAP_INFO)) ∧
      (∀ wb : List Nat,
        ¬ gcmTagOk (derive_wrap_key (List.replicate 32 0)) wb (aadOrWrapInfo none) →
          unwrap_dek (List.replicate 32 0) wb none = .error .cryptoFailure)) :=
  ⟨by decide, by decide,
   claim_C2_wrap_unwrap_roundtrip (List.replicate 32 0) (List.replicate 32 1)
     none ⟨11, 0⟩ (by decide) (by decide)⟩

theorem mem_hexChars_getD (n : Nat) :
    hexChars.contains (hexChars.getD (n % 16) '0') = true := by
  have h16 : hexChars.length = 16 := by decide
  have h : n % 16 < hexChars.length := by
    rw [h16]; exact Nat.mod_lt n (by norm_num)
  rw [List.getD_eq_getElem _ _ h]
  exact List.elem_eq_true_of_mem (List.getElem_mem h)

theorem hexDigest_all_hex (bs : List Nat) :
    (hexDigest bs).data.all (fun c => hexChars.contains c) = true := by
  show (bs.foldr _ []).all _ = true
  induction bs with
  | nil => rfl
  | cons b bs ih =>
    simp only [List.foldr_cons, List.all_cons, ih, Bool.and_true]
    rw [mem_hexChars_getD (b / 16), Bool.true_and]
    exact mem_hexChars_getD b

/-- Claim C3: `write_blob` returns the lowercase hex of the (modelled)
SHA-256 digest of the ciphertext, stores the ciphertext at
`blobs/sha256/h[0:2]/h[2:].enc`, and a subsequent read of the returned
address yields exactly the written bytes, so the hash of the read-back
contents re-derives the address. -/
theorem claim_C3_blob_store_roundtrip (st : BlobStore) (C : List Nat) :
    (write_blob st C).1 = hexDigest (sha256Model C) ∧
    (write_blob st C).1.data.all (fun c => hexChars.contains c) = true ∧
    blobPath (write_blob st C).1
      = "blobs/sha256/" ++ (write_blob st C).1.take 2 ++ "/"
        ++ (write_blob st C).1.drop 2 ++ ".enc" ∧
    storeGet (write_blob st C).2 (blobPath (write_blob st C).1) = some C ∧
    read_blob_by_hash (write_blob st C).2 (write_blob st C).1 = .ok C ∧
    sha256_hex C = (write_blob st C).1 := by
  refine ⟨rfl, hexDigest_all_hex (sha256Model C), rfl, ?_, ?_, rfl⟩
  · exact storeGet_storeSet_same st (blobPath (sha256_hex C)) C
  · show (match storeGet (storeSet st (blobPath (sha256_hex C)) C)
        (blobPath (sha256_hex C)) with
      | some c => Except.ok c
      | none => Except.error VaultErr.notFound) = Except.ok C
    rw [storeGet_storeSet_same st (blobPath (sha256_hex C)) C]

/-- Claim C4: the AEAD output is `nonce || ciphertext_with_tag` with a
12-byte nonce and total length plaintext + 28; decryption splits the first
12 bytes as the nonce and passes the rest to the verifier; decryption
inverts encryption. -/
theorem claim_C4_aead_layout_roundtrip (key plaintext : List Nat)
    (aad : Option (List Nat)) (r : Rng) :
    (aead_encrypt key plaintext aad r).1.1.length = plaintext.length + 28 ∧
    (aead_encrypt key plaintext aad r).1.2.length = 12 ∧
    (aead_encrypt key plaintext aad r).1.1.take 12
      = (aead_encrypt key plaintext aad r).1.2 ∧
    aead_decrypt key (aead_encrypt key plaintext aad r).1.1 aad = .ok plaintext ∧
    (∀ blob : List Nat,
      aead_decrypt key blob aad =
        match gcmDecrypt key (blob.take 12) (blob.drop 12) (aadEff aad) with
        | some pt => .ok pt
        | none => .error .cryptoFailure) := by
  refine ⟨?_, ?_, ?_, aead_roundtrip key plaintext aad r, fun blob => rfl⟩
  · rw [aead_encrypt_eq]
    simp only [List.length_append, gcmEncrypt_length, tokenBytes_length]
    omega
  · rw [aead_encrypt_eq]
    exact tokenBytes_length r 12
  · rw [aead_encrypt_eq]
    exact List.take_left' (tokenBytes_length r 12)

/-! ## Pipeline characterization lemmas -/

theorem read_blob_write_blob (st : BlobStore) (c : List Nat) :
    read_blob_by_hash (write_blob st c).2 (write_blob st c).1 = .ok c := by
  show (match storeGet (storeSet st (blobPath (sha256_hex c)) c)
      (blobPath (sha256_hex c)) with
    | some b => Except.ok b
    | none => Except.error VaultErr.notFound) = Except.ok c
  rw [storeGet_storeSet_same st (blobPath (sha256_hex c)) c]

theorem encrypt_and_store_blob_eq (mk pt : List Nat) (aad : Option (List Nat))
    (st : BlobStore) (r : Rng) :
    encrypt_and_store_blob mk pt aad st r =
      ((write_blob st (aead_encrypt (make_dek r).1 pt aad (make_dek r).2).1.1).1,
       (wrap_dek mk (make_dek r).1 aad
         (aead_encrypt (make_dek r).1 pt aad (make_dek r).2).2).1,
       (write_blob st (aead_encrypt (make_dek r).1 pt aad (make_dek r).2).1.1).2,
       (wrap_dek mk (make_dek r).1 aad
         (aead_encrypt (make_dek r).1 pt aad (make_dek r).2).2).2) := rfl

/-- Decrypting straight after `encrypt_and_store_blob`, with the same MK
and the same AAD, recovers the plaintext. -/
theorem decrypt_blob_after_encrypt (mk pt : List Nat) (aad : Option (List Nat))
    (st : BlobStore) (r : Rng) :
    decrypt_blob_with_wrapped_dek mk (encrypt_and_store_blob mk pt aad st r).2.2.1
      (encrypt_and_store_blob mk pt aad st r).1
      (encrypt_and_store_blob mk pt aad st r).2.1 aad = .ok pt := by
  rw [encrypt_and_store_blob_eq]
  unfold decrypt_blob_with_wrapped_dek
  rw [read_blob_write_blob]
  rw [unwrap_wrap_roundtrip]
  exact aead_roundtrip (make_dek r).1 pt aad (make_dek r).2

/-! ## Association-list lemmas for the shallow merge (C7) -/

theorem lookupJ_cons (q : String × JVal) (obj : List (String × JVal)) (k : String) :
    lookupJ (q :: obj) k = if q.1 = k then some q.2 else lookupJ obj k := by
  by_cases hq : q.1 = k
  · simp [lookupJ, List.find?_cons, hq]
  · simp [lookupJ, List.find?_cons, hq]

theorem lookupJ_append (l1 l2 : List (String × JVal)) (k : String) :
    lookupJ (l1 ++ l2) k =
      match lookupJ l1 k with
      | some v => some v
      | none => lookupJ l2 k := by
  induction l1 with
  | nil => simp [lookupJ, List.find?]
  | cons p ps ih =>
    rw [List.cons_append, lookupJ_cons, lookupJ_cons]
    by_cases hp : p.1 = k
    · rw [if_pos hp, if_pos hp]
    · rw [if_neg hp, if_neg hp, ih]

theorem lookupJ_mapSet_same (obj : List (String × JVal)) (k : String) (v : JVal)
    (hmem : (obj.map Prod.fst).contains k = true) :
    lookupJ (obj.map (fun p => if p.1 = k then (k, v) else p)) k = some v := by
  induction obj with
  | nil => simp at hmem
  | cons p ps ih =>
    simp only [List.map_cons]
    rw [lookupJ_cons]
    by_cases hp : p.1 = k
    · rw [if_pos hp]
      simp
    · rw [if_neg hp]
      simp only [hp, if_false]
      apply ih
      simp only [List.map_cons, List.contains_cons, Bool.or_eq_true, beq_iff_eq] at hmem
      rcases hmem with h1 | h1
      · exact absurd h1.symm hp
      · exact h1

theorem lookupJ_mapSet_other (obj : List (String × JVal)) (k k2 : String) (v : JVal)
    (hk : k2 ≠ k) :
    lookupJ (obj.map (fun p => if p.1 = k then (k, v) else p)) k2 = lookupJ obj k2 := by
  induction obj with
  | nil => rfl
  | cons p ps ih =>
    simp only [List.map_cons]
    rw [lookupJ_cons, lookupJ_cons]
    by_cases hp : p.1 = k
    · rw [if_pos hp]
      rw [if_neg (fun h => hk h.symm), if_neg (by rw [hp]; exact fun h => hk h.symm), ih]
    · rw [if_neg hp, ih]

theorem lookupJ_setKey_same (obj : List (String × JVal)) (k : String) (v : JVal) :
    lookupJ (setKey obj k v) k = some v := by
  unfold setKey
  by_cases hmem : (obj.map Prod.fst).contains k
  · rw [if_pos hmem]
    exact lookupJ_mapSet_same obj k v hmem
  · rw [if_neg hmem, lookupJ_append]
    have hfind : obj.find? (fun p => p.1 = k) = none := by
      apply List.find?_eq_none.mpr
      intro p hp
      simp only [decide_eq_true_eq]
      intro hpk
      exact hmem (List.elem_eq_true_of_mem (hpk ▸ List.mem_map_of_mem Prod.fst hp))
    have hnone : lookupJ obj k = none := by
      unfold lookupJ
      rw [hfind]
      rfl
    rw [hnone]
    show lookupJ [(k, v)] k = some v
    rw [lookupJ_cons]
    simp

theorem lookupJ_setKey_other (obj : List (String × JVal)) (k k2 : String) (v : JVal)
    (hk : k2 ≠ k) :
    lookupJ (setKey obj k v) k2 = lookupJ obj k2 := by
  unfold setKey
  by_cases hmem : (obj.map Prod.fst).contains k
  · rw [if_pos hmem]
    exact lookupJ_mapSet_other obj k k2 v hk
  · rw [if_neg hmem, lookupJ_append]
    cases h : lookupJ obj k2 with
    | some w => rfl
    | none =>
      show lookupJ [(k, v)] k2 = none
      rw [lookupJ_cons, if_neg (fun h2 => hk (Eq.symm h2))]
      rfl

/-! ## Shallow-merge lemmas and claim C7 -/

theorem isNull_eq_false_of_ne (v : JVal) (h : v ≠ .null) : v.isNull = false := by
  cases v <;> simp [JVal.isNull] at h ⊢

theorem dictUpdate_cons (obj : List (String × JVal)) (kv : String × JVal)
    (rest : List (String × JVal)) :
    dictUpdate obj (kv :: rest) =
      dictUpdate (if kv.2.isNull then obj else setKey obj kv.1 kv.2) rest := rfl

theorem not_mem_keys_of_lookupJ_none (updates : List (String × JVal)) (k : String)
    (h : lookupJ updates k = none) : ¬ k ∈ updates.map Prod.fst := by
  induction updates with
  | nil => simp
  | cons p ps ih =>
    rw [lookupJ_cons] at h
    by_cases hp : p.1 = k
    · rw [if_pos hp] at h
      exact absurd h (by simp)
    · rw [if_neg hp] at h
      simp only [List.map_cons, List.mem_cons]
      rintro (h1 | h1)
      · exact hp h1.symm
      · exact ih h h1

theorem dictUpdate_not_mem (obj updates : List (String × JVal)) (k : String)
    (hk : ¬ k ∈ updates.map Prod.fst) :
    lookupJ (dictUpdate obj updates) k = lookupJ obj k := by
  induction updates generalizing obj with
  | nil => rfl
  | cons kv rest ih =>
    rw [dictUpdate_cons]
    have hk1 : k ≠ kv.1 := by
      intro h
      exact hk (by simp [h])
    have hk2 : ¬ k ∈ rest.map Prod.fst := by
      intro h
      exact hk (by simp [h])
    rw [ih _ hk2]
    by_cases hn : kv.2.isNull
    · rw [if_pos hn]
    · rw [if_neg hn]
      exact lookupJ_setKey_other obj kv.1 k kv.2 hk1

theorem dictUpdate_lookup_some (obj updates : List (String × JVal)) (k : String)
    (v : JVal) (hnd : (updates.map Prod.fst).Nodup)
    (hv : lookupJ updates k = some v) (hvn : v ≠ .null) :
    lookupJ (dictUpdate obj updates) k = some v := by
  induction updates generalizing obj with
  | nil => exact absurd hv (by simp [lookupJ, List.find?])
  | cons kv rest ih =>
    rw [dictUpdate_cons]
    rw [lookupJ_cons] at hv
    simp only [List.map_cons, List.nodup_cons] at hnd
    by_cases hk : kv.1 = k
    · rw [if_pos hk] at hv
      have hveq : kv.2 = v := Option.some.inj hv
      have hrest : ¬ k ∈ rest.map Prod.fst := fun hmem => hnd.1 (hk ▸ hmem)
      rw [dictUpdate_not_mem _ _ _ hrest]
      rw [if_neg (by rw [hveq]; exact (isNull_eq_false_of_ne v hvn) ▸ (by simp))]
      rw [hveq, hk]
      exact lookupJ_setKey_same obj k v
    · rw [if_neg hk] at hv
      exact ih _ hnd.2 hv

theorem dictUpdate_lookup_null (obj updates : List (String × JVal)) (k : String)
    (hnd : (updates.map Prod.fst).Nodup)
    (hv : lookupJ updates k = some .null) :
    lookupJ (dictUpdate obj updates) k = lookupJ obj k := by
  induction updates generalizing obj with
  | nil => exact absurd hv (by simp [lookupJ, List.find?])
  | cons kv rest ih =>
    rw [dictUpdate_cons]
    rw [lookupJ_cons] at hv
    simp only [List.map_cons, List.nodup_cons] at hnd
    by_cases hk : kv.1 = k
    · rw [if_pos hk] at hv
      have hveq : kv.2 = JVal.null := Option.some.inj hv
      have hrest : ¬ k ∈ rest.map Prod.fst := fun hmem => hnd.1 (hk ▸ hmem)
      rw [dictUpdate_not_mem _ _ _ hrest]
      rw [if_pos (by rw [hveq]; rfl)]
    · rw [if_neg hk] at hv
      rw [ih _ hnd.2 hv]
      by_cases hn : kv.2.isNull
      · rw [if_pos hn]
      · rw [if_neg hn]
        exact lookupJ_setKey_other obj kv.1 k kv.2 (fun h => hk h.symm)

/-- Claim C7: the shallow merge used by `update_identity` and
`update_secret` maps each key present in `updates` with a non-null value
to that value (nested objects replaced wholesale), leaves keys whose
update value is null at their stored value, and preserves keys absent
from `updates`. -/
theorem claim_C7_shallow_merge_semantics (obj updates : List (String × JVal))
    (hnd : (updates.map Prod.fst).Nodup) :
    (∀ k v, lookupJ updates k = some v → v ≠ .null →
      lookupJ (dictUpdate obj updates) k = some v) ∧
    (∀ k, lookupJ updates k = some .null →
      lookupJ (dictUpdate obj updates) k = lookupJ obj k) ∧
    (∀ k, lookupJ updates k = none →
      lookupJ (dictUpdate obj updates) k = lookupJ obj k) ∧
    (∀ k m, lookupJ updates k = some (.obj m) →
      lookupJ (dictUpdate obj updates) k = some (.obj m)) := by
  refine ⟨fun k v hv hvn => dictUpdate_lookup_some obj updates k v hnd hv hvn,
    fun k hv => dictUpdate_lookup_null obj updates k hnd hv,
    fun k hv => dictUpdate_not_mem obj updates k
      (not_mem_keys_of_lookupJ_none updates k hv),
    fun k m hv => dictUpdate_lookup_some obj updates k (.obj m) hnd hv
      (fun h => JVal.noConfusion h)⟩

theorem chooseFrom_mem (cs : List Char) (r : Rng) (h : cs ≠ []) :
    (chooseFrom cs r).1 ∈ cs := by
  have hlen : 0 < cs.length := List.length_pos.mpr h
  have hj : rngByte r.seed r.pos % cs.length < cs.length := Nat.mod_lt _ hlen
  show cs.getD (rngByte r.seed r.pos % cs.length) 'A' ∈ cs
  rw [List.getD_eq_getElem _ _ hj]
  exact List.getElem_mem hj

theorem fillChars_length (all : List Char) (n : Nat) (r : Rng) :
    (fillChars all n r).1.length = n := by
  induction n generalizing r with
  | zero => rfl
  | succ n ih => simp [fillChars, ih]

theorem shuffleGo_perm (fuel : Nat) (r : Rng) (xs : List Char) :
    (shuffleGo fuel r xs).1.Perm xs := by
  induction fuel generalizing r xs with
  | zero => exact List.Perm.refl xs
  | succ fuel ih =>
    cases xs with
    | nil => exact List.Perm.refl []
    | cons x xs =>
      have hlen : 0 < (x :: xs).length := by simp
      have hj : rngByte r.seed r.pos % (x :: xs).length < (x :: xs).length :=
        Nat.mod_lt _ hlen
      have hc : (x :: xs).getD (rngByte r.seed r.pos % (x :: xs).length) x
          ∈ (x :: xs) := by
        rw [List.getD_eq_getElem _ _ hj]
        exact List.getElem_mem hj
      show ((x :: xs).getD _ x ::
        (shuffleGo fuel ⟨r.seed, r.pos + 1⟩ ((x :: xs).erase _)).1).Perm (x :: xs)
      exact ((ih _ _).cons _).trans (List.perm_cons_erase hc).symm

theorem shuffleR_perm (r : Rng) (xs : List Char) : (shuffleR r xs).1.Perm xs :=
  shuffleGo_perm xs.length r xs

/-- Claim C8: for every requested length ≥ 8 the generated password has
exactly the requested length and contains at least one character from each
of the four classes (uppercase, lowercase, digit, symbol); for every
length < 8 the generator fails with `InvalidArgument`. -/
theorem claim_C8_password_generator (length : Nat) (r : Rng) :
    (length < 8 → generate_secure_password length r = .error .invalidArgument) ∧
    (8 ≤ length → ∃ pw : String,
      generate_secure_password length r = .ok pw ∧
      pw.length = length ∧
      pw.data.any (fun c => string_ascii_uppercase.contains c) = true ∧
      pw.data.any (fun c => string_ascii_lowercase.contains c) = true ∧
      pw.data.any (fun c => string_digits.contains c) = true ∧
      pw.data.any (fun c => generatorSymbols.contains c) = true) := by
  constructor
  · intro hlt
    unfold generate_secure_password
    rw [if_pos hlt]
  · intro h8
    unfold generate_secure_password
    rw [if_neg (by omega)]
    refine ⟨_, rfl, ?_, ?_, ?_, ?_, ?_⟩
    · show (shuffleR _ _).1.length = length
      rw [(shuffleR_perm _ _).length_eq]
      simp only [List.length_append, List.length_cons, List.length_nil, fillChars_length]
      omega
    all_goals {
      rw [List.any_eq_true]
      first
      | exact ⟨_, (shuffleR_perm _ _).mem_iff.mpr
          (List.mem_append_left _ (by
            first
            | exact List.mem_cons_self _ _
            | exact List.mem_cons_of_mem _ (List.mem_cons_self _ _)
            | exact List.mem_cons_of_mem _ (List.mem_cons_of_mem _
                (List.mem_cons_self _ _))
            | exact List.mem_cons_of_mem _ (List.mem_cons_of_mem _
                (List.mem_cons_of_mem _ (List.mem_cons_self _ _))))),
          List.elem_eq_true_of_mem (chooseFrom_mem _ _ (by decide))⟩
    }

/-! ## Index-table lemmas -/

theorem findItem_cons (p : ItemRow) (ps : List ItemRow) (item_id : String) :
    findItem (p :: ps) item_id =
      if p.item_id = item_id then some p else findItem ps item_id := by
  by_cases hp : p.item_id = item_id
  · simp [findItem, List.find?_cons, hp]
  · simp [findItem, List.find?_cons, hp]

theorem findSecret_cons (p : SecretRow) (ps : List SecretRow) (secret_id : String) :
    findSecret (p :: ps) secret_id =
      if p.secret_id = secret_id then some p else findSecret ps secret_id := by
  by_cases hp : p.secret_id = secret_id
  · simp [findSecret, List.find?_cons, hp]
  · simp [findSecret, List.find?_cons, hp]

theorem findFile_cons (p : FileRow) (ps : List FileRow) (file_id : String) :
    findFile (p :: ps) file_id =
      if p.file_id = file_id then some p else findFile ps file_id := by
  by_cases hp : p.file_id = file_id
  · simp [findFile, List.find?_cons, hp]
  · simp [findFile, List.find?_cons, hp]

theorem findItem_append_right (items : List ItemRow) (r : ItemRow) (item_id : String)
    (h : findItem items item_id = none) (hr : r.item_id = item_id) :
    findItem (items ++ [r]) item_id = some r := by
  induction items with
  | nil => simp [findItem, List.find?_cons, hr]
  | cons p ps ih =>
    rw [findItem_cons] at h
    by_cases hp : p.item_id = item_id
    · rw [if_pos hp] at h
      exact absurd h (by simp)
    · rw [if_neg hp] at h
      rw [List.cons_append, findItem_cons, if_neg hp]
      exact ih h

theorem findSecret_append_right (rows : List SecretRow) (r : SecretRow)
    (secret_id : String) (h : findSecret rows secret_id = none)
    (hr : r.secret_id = secret_id) :
    findSecret (rows ++ [r]) secret_id = some r := by
  induction rows with
  | nil => simp [findSecret, List.find?_cons, hr]
  | cons p ps ih =>
    rw [findSecret_cons] at h
    by_cases hp : p.secret_id = secret_id
    · rw [if_pos hp] at h
      exact absurd h (by simp)
    · rw [if_neg hp] at h
      rw [List.cons_append, findSecret_cons, if_neg hp]
      exact ih h

theorem findFile_append_right (rows : List FileRow) (r : FileRow)
    (file_id : String) (h : findFile rows file_id = none)
    (hr : r.file_id = file_id) :
    findFile (rows ++ [r]) file_id = some r := by
  induction rows with
  | nil => simp [findFile, List.find?_cons, hr]
  | cons p ps ih =>
    rw [findFile_cons] at h
    by_cases hp : p.file_id = file_id
    · rw [if_pos hp] at h
      exact absurd h (by simp)
    · rw [if_neg hp] at h
      rw [List.cons_append, findFile_cons, if_neg hp]
      exact ih h

theorem findItem_replaceItem_same (items : List ItemRow) (item_id : String)
    (r : ItemRow) (it : ItemRow) (hfind : findItem items item_id = some it)
    (hr : r.item_id = item_id) :
    findItem (replaceItem items item_id r) item_id = some r := by
  induction items with
  | nil => exact absurd hfind (by simp [findItem, List.find?])
  | cons p ps ih =>
    unfold replaceItem
    simp only [List.map_cons]
    rw [findItem_cons] at hfind
    by_cases hp : p.item_id = item_id
    · rw [if_pos hp, findItem_cons, if_pos hr]
    · rw [if_neg hp, findItem_cons, if_neg hp]
      rw [if_neg hp] at hfind
      exact ih hfind

theorem map_items_not_mem (items : List ItemRow) (item_id : String) (now : Int)
    (h : ∀ it ∈ items, it.item_id ≠ item_id) :
    items.map (fun it =>
      if it.item_id = item_id then
        { it with has_attachments := 1, updated_at := now }
      else it) = items := by
  induction items with
  | nil => rfl
  | cons p ps ih =>
    simp only [List.map_cons]
    rw [if_neg (h p (List.mem_cons_self p ps)),
      ih (fun it hit => h it (List.mem_cons_of_mem p hit))]

/-! ## Operation characterization lemmas -/

theorem create_identity_eq (s : VaultState) (now : Int)
    (item_id domain name : String) (pii : List (String × JVal))
    (site_type : String) (trust_level : Int) (mk : List Nat)
    (hmk : s.mk = some mk) (hfind : findItem s.items item_id = none) :
    create_identity s now item_id domain name pii site_type trust_level =
      .ok ({ s with
              items := s.items ++
                [{ item_id := item_id, domain := .str domain, title := .str name,
                   detail_blob_hash := (encrypt_and_store_blob mk
                     (encodeJson (.obj (identityObj item_id name pii now)))
                     (some (utf8Bytes item_id)) s.blobs s.rng).1,
                   detail_dek_wrap := (encrypt_and_store_blob mk
                     (encodeJson (.obj (identityObj item_id name pii now)))
                     (some (utf8Bytes item_id)) s.blobs s.rng).2.1,
                   has_attachments := 0, site_type := site_type,
                   trust_level := trust_level, created_at := now,
                   updated_at := now, version := some 1, tombstoned := 0 }],
              blobs := (encrypt_and_store_blob mk
                (encodeJson (.obj (identityObj item_id name pii now)))
                (some (utf8Bytes item_id)) s.blobs s.rng).2.2.1,
              rng := (encrypt_and_store_blob mk
                (encodeJson (.obj (identityObj item_id name pii now)))
                (some (utf8Bytes item_id)) s.blobs s.rng).2.2.2 },
           (encrypt_and_store_blob mk
             (encodeJson (.obj (identityObj item_id name pii now)))
             (some (utf8Bytes item_id)) s.blobs s.rng).1) := by
  unfold create_identity
  rw [hmk, hfind]

theorem create_secret_eq (s : VaultState) (now : Int) (secret_id item_id : String)
    (secret_type : String) (username password totp_uri notes : Option String)
    (mk : List Nat) (hmk : s.mk = some mk)
    (hfind : findSecret s.secretRows secret_id = none) :
    create_secret s now secret_id item_id secret_type username password
        totp_uri notes =
      .ok ({ s with
              secretRows := s.secretRows ++
                [{ secret_id := secret_id, item_id := item_id,
                   blob_hash := (encrypt_and_store_blob mk
                     (encodeJson (.obj (secretObj secret_id secret_type username
                       password totp_uri notes now)))
                     (some (utf8Bytes secret_id)) s.blobs s.rng).1,
                   dek_wrap := (encrypt_and_store_blob mk
                     (encodeJson (.obj (secretObj secret_id secret_type username
                       password totp_uri notes now)))
                     (some (utf8Bytes secret_id)) s.blobs s.rng).2.1,
                   secret_type := secret_type, created_at := now,
                   updated_at := now }],
              blobs := (encrypt_and_store_blob mk
                (encodeJson (.obj (secretObj secret_id secret_type username
                  password totp_uri notes now)))
                (some (utf8Bytes secret_id)) s.blobs s.rng).2.2.1,
              rng := (encrypt_and_store_blob mk
                (encodeJson (.obj (secretObj secret_id secret_type username
                  password totp_uri notes now)))
                (some (utf8Bytes secret_id)) s.blobs s.rng).2.2.2 },
           (encrypt_and_store_blob mk
             (encodeJson (.obj (secretObj secret_id secret_type username
               password totp_uri notes now)))
             (some (utf8Bytes secret_id)) s.blobs s.rng).1) := by
  unfold create_secret
  rw [hmk, hfind]

theorem add_file_eq (s : VaultState) (now : Int) (file_id item_id : String)
    (filename mime_type : String) (file_bytes : List Nat)
    (description : Option String) (mk : List Nat) (hmk : s.mk = some mk)
    (hfind : findFile s.fileRows file_id = none) :
    add_file s now file_id item_id filename mime_type file_bytes description =
      .ok ({ s with
              fileRows := s.fileRows ++
                [{ file_id := file_id, item_id := item_id,
                   blob_hash := (encrypt_and_store_blob mk file_bytes
                     (some (utf8Bytes file_id)) s.blobs s.rng).1,
                   dek_wrap := (encrypt_and_store_blob mk file_bytes
                     (some (utf8Bytes file_id)) s.blobs s.rng).2.1,
                   filename := filename, mime_type := mime_type,
                   size_bytes := (file_bytes.length : Int), created_at := now,
                   updated_at := now }],
              items := s.items.map (fun it =>
                if it.item_id = item_id then
                  { it with has_attachments := 1, updated_at := now }
                else it),
              blobs := (encrypt_and_store_blob mk file_bytes
                (some (utf8Bytes file_id)) s.blobs s.rng).2.2.1,
              rng := (encrypt_and_store_blob mk file_bytes
                (some (utf8Bytes file_id)) s.blobs s.rng).2.2.2 },
           (encrypt_and_store_blob mk file_bytes
             (some (utf8Bytes file_id)) s.blobs s.rng).1) := by
  unfold add_file
  rw [hmk, hfind]

theorem load_identity_eq (s : VaultState) (item_id : String) (mk : List Nat)
    (it : ItemRow) (hmk : s.mk = some mk)
    (hfind : findItem s.items item_id = some it) :
    load_identity s item_id =
      match decrypt_blob_with_wrapped_dek mk s.blobs it.detail_blob_hash
        it.detail_dek_wrap (some (utf8Bytes item_id)) with
      | .error e => .error e
      | .ok pt => identityFromBytes pt := by
  unfold load_identity
  rw [hmk, hfind]

theorem load_secret_eq (s : VaultState) (secret_id : String) (mk : List Nat)
    (sec : SecretRow) (hmk : s.mk = some mk)
    (hfind : findSecret s.secretRows secret_id = some sec) :
    load_secret s secret_id =
      match decrypt_blob_with_wrapped_dek mk s.blobs sec.blob_hash
        sec.dek_wrap (some (utf8Bytes secret_id)) with
      | .error e => .error e
      | .ok pt => secretFromBytes pt := by
  unfold load_secret
  rw [hmk, hfind]

theorem load_file_eq (s : VaultState) (file_id : String) (mk : List Nat)
    (fr : FileRow) (hmk : s.mk = some mk)
    (hfind : findFile s.fileRows file_id = some fr) :
    load_file s file_id =
      decrypt_blob_with_wrapped_dek mk s.blobs fr.blob_hash fr.dek_wrap
        (some (utf8Bytes file_id)) := by
  unfold load_file
  rw [hmk, hfind]

/-- Inversion of a successful `update_identity`: exposes every intermediate
value and the exact shape of the updated row and state. -/
theorem update_identity_ok_elim (s : VaultState) (now : Int) (item_id : String)
    (updates : List (String × JVal)) (s2 : VaultState)
    (payload : List (String × JVal))
    (h : update_identity s now item_id updates = .ok (s2, payload)) :
    ∃ mk it pt obj touched,
      s.mk = some mk ∧
      findItem s.items item_id = some it ∧
      decrypt_blob_with_wrapped_dek mk s.blobs it.detail_blob_hash
        it.detail_dek_wrap (some (utf8Bytes item_id)) = .ok pt ∧
      dictFromBytes pt = .ok obj ∧
      auditTouch (dictUpdate obj updates) now = .ok touched ∧
      blobOfObj identityFieldNames identityRequired touched = some payload ∧
      s2 = { s with
        items := replaceItem s.items item_id
          { it with
            title := syncCol it.title (lookupJ updates "name"),
            domain := syncCol it.domain (lookupJ updates "domain"),
            detail_blob_hash := (encrypt_and_store_blob mk
              (encodeJson (.obj touched)) (some (utf8Bytes item_id))
              s.blobs s.rng).1,
            detail_dek_wrap := (encrypt_and_store_blob mk
              (encodeJson (.obj touched)) (some (utf8Bytes item_id))
              s.blobs s.rng).2.1,
            updated_at := now, version := some (verBump it.version) },
        blobs := (encrypt_and_store_blob mk (encodeJson (.obj touched))
          (some (utf8Bytes item_id)) s.blobs s.rng).2.2.1,
        rng := (encrypt_and_store_blob mk (encodeJson (.obj touched))
          (some (utf8Bytes item_id)) s.blobs s.rng).2.2.2 } := by
  unfold update_identity at h
  split at h
  · exact absurd h (by simp)
  rename_i mk hmk
  split at h
  · exact absurd h (by simp)
  rename_i it hfind
  split at h
  · exact absurd h (by simp)
  rename_i pt hdec
  split at h
  · exact absurd h (by simp)
  rename_i obj hobj
  split at h
  · exact absurd h (by simp)
  rename_i touched htouch
  split at h
  · exact absurd h (by simp)
  rename_i p hblob
  have hpair := Except.ok.inj h
  have hs2 := congrArg Prod.fst hpair
  have hpay := congrArg Prod.snd hpair
  simp only at hs2 hpay
  exact ⟨mk, it, pt, obj, touched, hmk, hfind, hdec, hobj, htouch,
    hpay ▸ hblob, hs2.symm⟩

theorem findItem_some_key (items : List ItemRow) (item_id : String) (it : ItemRow)
    (h : findItem items item_id = some it) : it.item_id = item_id := by
  have h2 := List.find?_some h
  simpa using h2

theorem verBump_of_ne_zero (v : Int) (h : v ≠ 0) : verBump (some v) = v + 1 := by
  simp [verBump, h]

/-- Inversion of a successful `create_identity`. -/
theorem create_identity_ok_elim (s : VaultState) (now : Int)
    (item_id domain name : String) (pii : List (String × JVal))
    (site_type : String) (trust_level : Int) (s2 : VaultState) (bh : String)
    (h : create_identity s now item_id domain name pii site_type trust_level
      = .ok (s2, bh)) :
    ∃ mk, s.mk = some mk ∧ findItem s.items item_id = none ∧
      bh = (encrypt_and_store_blob mk
        (encodeJson (.obj (identityObj item_id name pii now)))
        (some (utf8Bytes item_id)) s.blobs s.rng).1 ∧
      s2 = { s with
              items := s.items ++
                [{ item_id := item_id, domain := .str domain, title := .str name,
                   detail_blob_hash := (encrypt_and_store_blob mk
                     (encodeJson (.obj (identityObj item_id name pii now)))
                     (some (utf8Bytes item_id)) s.blobs s.rng).1,
                   detail_dek_wrap := (encrypt_and_store_blob mk
                     (encodeJson (.obj (identityObj item_id name pii now)))
                     (some (utf8Bytes item_id)) s.blobs s.rng).2.1,
                   has_attachments := 0, site_type := site_type,
                   trust_level := trust_level, created_at := now,
                   updated_at := now, version := some 1, tombstoned := 0 }],
              blobs := (encrypt_and_store_blob mk
                (encodeJson (.obj (identityObj item_id name pii now)))
                (some (utf8Bytes item_id)) s.blobs s.rng).2.2.1,
              rng := (encrypt_and_store_blob mk
                (encodeJson (.obj (identityObj item_id name pii now)))
                (some (utf8Bytes item_id)) s.blobs s.rng).2.2.2 } := by
  unfold create_identity at h
  split at h
  · exact absurd h (by simp)
  rename_i mk hmk
  split at h
  · exact absurd h (by simp)
  rename_i hfind
  have hpair := Except.ok.inj h
  have hs2 := congrArg Prod.fst hpair
  have hbh := congrArg Prod.snd hpair
  simp only at hs2 hbh
  exact ⟨mk, hmk, hfind, hbh.symm, hs2.symm⟩

/-- Inversion of a successful `add_file`. -/
theorem add_file_ok_elim (s : VaultState) (now : Int) (file_id item_id : String)
    (filename mime_type : String) (file_bytes : List Nat)
    (description : Option String) (s2 : VaultState) (bh : String)
    (h : add_file s now file_id item_id filename mime_type file_bytes description
      = .ok (s2, bh)) :
    ∃ mk, s.mk = some mk ∧ findFile s.fileRows file_id = none ∧
      bh = (encrypt_and_store_blob mk file_bytes
        (some (utf8Bytes file_id)) s.blobs s.rng).1 ∧
      s2 = { s with
              fileRows := s.fileRows ++
                [{ file_id := file_id, item_id := item_id,
                   blob_hash := (encrypt_and_store_blob mk file_bytes
                     (some (utf8Bytes file_id)) s.blobs s.rng).1,
                   dek_wrap := (encrypt_and_store_blob mk file_bytes
                     (some (utf8Bytes file_id)) s.blobs s.rng).2.1,
                   filename := filename, mime_type := mime_type,
                   size_bytes := (file_bytes.length : Int), created_at := now,
                   updated_at := now }],
              items := s.items.map (fun it =>
                if it.item_id = item_id then
                  { it with has_attachments := 1, updated_at := now }
                else it),
              blobs := (encrypt_and_store_blob mk file_bytes
                (some (utf8Bytes file_id)) s.blobs s.rng).2.2.1,
              rng := (encrypt_and_store_blob mk file_bytes
                (some (utf8Bytes file_id)) s.blobs s.rng).2.2.2 } := by
  unfold add_file at h
  split at h
  · exact absurd h (by simp)
  rename_i mk hmk
  split at h
  · exact absurd h (by simp)
  rename_i hfind
  have hpair := Except.ok.inj h
  have hs2 := congrArg Prod.fst hpair
  have hbh := congrArg Prod.snd hpair
  simp only at hs2 hbh
  exact ⟨mk, hmk, hfind, hbh.symm, hs2.symm⟩

theorem storeGet_write_blob (st : BlobStore) (c : List Nat) :
    storeGet (write_blob st c).2 (blobPath (write_blob st c).1) = some c := by
  show storeGet (storeSet st (blobPath (sha256_hex c)) c)
    (blobPath (sha256_hex c)) = some c
  exact storeGet_storeSet_same st (blobPath (sha256_hex c)) c

theorem esb_hash_eq (mk pt : List Nat) (aad : Option (List Nat))
    (st : BlobStore) (r : Rng) :
    (encrypt_and_store_blob mk pt aad st r).1
      = sha256_hex (aead_encrypt (make_dek r).1 pt aad (make_dek r).2).1.1 := rfl

theorem esb_store_get (mk pt : List Nat) (aad : Option (List Nat))
    (st : BlobStore) (r : Rng) :
    storeGet (encrypt_and_store_blob mk pt aad st r).2.2.1
      (blobPath (encrypt_and_store_blob mk pt aad st r).1)
      = some (aead_encrypt (make_dek r).1 pt aad (make_dek r).2).1.1 := by
  rw [encrypt_and_store_blob_eq]
  exact storeGet_write_blob st (aead_encrypt (make_dek r).1 pt aad (make_dek r).2).1.1

/-- Claim C10: a successful `update_identity` leaves `item_id`, `site_type`,
`trust_level`, `tombstoned`, `has_attachments` and `created_at` unchanged;
it rewrites `detail_blob_hash`/`detail_dek_wrap` (to the address and wrap of
the newly stored blob), `updated_at` and `version`, and changes
`title`/`domain` exactly when `updates` carries a non-null `"name"`/`"domain"`. -/
theorem claim_C10_update_identity_frame (s : VaultState) (now : Int)
    (item_id : String) (updates : List (String × JVal)) (s2 : VaultState)
    (payload : List (String × JVal)) (it : ItemRow)
    (hfind : findItem s.items item_id = some it)
    (h : update_identity s now item_id updates = .ok (s2, payload)) :
    ∃ it2, findItem s2.items item_id = some it2 ∧
      it2.item_id = it.item_id ∧
      it2.site_type = it.site_type ∧
      it2.trust_level = it.trust_level ∧
      it2.tombstoned = it.tombstoned ∧
      it2.has_attachments = it.has_attachments ∧
      it2.created_at = it.created_at ∧
      it2.updated_at = now ∧
      it2.version = some (verBump it.version) ∧
      it2.title = syncCol it.title (lookupJ updates "name") ∧
      it2.domain = syncCol it.domain (lookupJ updates "domain") ∧
      (∃ ct, storeGet s2.blobs (blobPath it2.detail_blob_hash) = some ct ∧
        it2.detail_blob_hash = sha256_hex ct) := by
  obtain ⟨mk, it', pt, obj, touched, hmk, hfind', hdec, hobj, htouch, hblob, hs2⟩ :=
    update_identity_ok_elim s now item_id updates s2 payload h
  rw [hfind] at hfind'
  obtain rfl : it = it' := Option.some.inj hfind'
  refine ⟨{ it with
      title := syncCol it.title (lookupJ updates "name"),
      domain := syncCol it.domain (lookupJ updates "domain"),
      detail_blob_hash := (encrypt_and_store_blob mk
        (encodeJson (.obj touched)) (some (utf8Bytes item_id))
        s.blobs s.rng).1,
      detail_dek_wrap := (encrypt_and_store_blob mk
        (encodeJson (.obj touched)) (some (utf8Bytes item_id))
        s.blobs s.rng).2.1,
      updated_at := now, version := some (verBump it.version) },
    ?_, rfl, rfl, rfl, rfl, rfl, rfl, rfl, rfl, rfl, rfl, ?_⟩
  · rw [hs2]
    exact findItem_replaceItem_same s.items item_id _ it hfind
      (findItem_some_key s.items item_id it hfind)
  · rw [hs2]
    exact ⟨(aead_encrypt (make_dek s.rng).1 (encodeJson (.obj touched))
        (some (utf8Bytes item_id)) (make_dek s.rng).2).1.1,
      esb_store_get mk (encodeJson (.obj touched)) (some (utf8Bytes item_id))
        s.blobs s.rng,
      esb_hash_eq mk (encodeJson (.obj touched)) (some (utf8Bytes item_id))
        s.blobs s.rng⟩

/-- Claim C9: `add_file` succeeds even when `item_id` matches no Item row:
the File row is inserted with `size_bytes` equal to the input length, no
`NotFound` is raised, and the bulk Item update touches zero rows. -/
theorem claim_C9_add_file_missing_item (s : VaultState) (now : Int)
    (file_id item_id filename mime_type : String) (file_bytes : List Nat)
    (description : Option String) (mk : List Nat)
    (hmk : s.mk = some mk)
    (hfile : findFile s.fileRows file_id = none)
    (hitem : ∀ it ∈ s.items, it.item_id ≠ item_id) :
    ∃ s2 bh,
      add_file s now file_id item_id filename mime_type file_bytes description
        = .ok (s2, bh) ∧
      (∃ fr, findFile s2.fileRows file_id = some fr ∧
        fr.size_bytes = (file_bytes.length : Int) ∧
        fr.item_id = item_id ∧ fr.filename = filename) ∧
      s2.items = s.items := by
  refine ⟨_, _, add_file_eq s now file_id item_id filename mime_type file_bytes
    description mk hmk hfile,
    ⟨{ file_id := file_id, item_id := item_id,
       blob_hash := (encrypt_and_store_blob mk file_bytes
         (some (utf8Bytes file_id)) s.blobs s.rng).1,
       dek_wrap := (encrypt_and_store_blob mk file_bytes
         (some (utf8Bytes file_id)) s.blobs s.rng).2.1,
       filename := filename, mime_type := mime_type,
       size_bytes := (file_bytes.length : Int), created_at := now,
       updated_at := now }, ?_, rfl, rfl, rfl⟩, ?_⟩
  · exact findFile_append_right s.fileRows _ file_id hfile rfl
  · exact map_items_not_mem s.items item_id now hitem

/-- Claim C5 (amended): the eight cryptographic record operations fail with
`Locked` whenever MK is unset, while `list_items` and
`list_secrets_for_item` perform no lock check and succeed on a locked
vault. -/
theorem claim_C5_locked_operations (s : VaultState) (hlock : s.mk = none)
    (now : Int) (item_id secret_id file_id domain name site_type : String)
    (filename mime_type secret_type : String)
    (pii updates : List (String × JVal)) (trust_level : Int)
    (username password totp_uri notes description : Option String)
    (file_bytes : List Nat) :
    create_identity s now item_id domain name pii site_type trust_level
      = .error .locked ∧
    load_identity s item_id = .error .locked ∧
    update_identity s now item_id updates = .error .locked ∧
    create_secret s now secret_id item_id secret_type username password
      totp_uri notes = .error .locked ∧
    load_secret s secret_id = .error .locked ∧
    update_secret s now secret_id updates = .error .locked ∧
    add_file s now file_id item_id filename mime_type file_bytes description
      = .error .locked ∧
    load_file s file_id = .error .locked ∧
    (∃ xs, list_items s = .ok xs) ∧
    (∃ ys, list_secrets_for_item s item_id = .ok ys) := by
  refine ⟨?_, ?_, ?_, ?_, ?_, ?_, ?_, ?_, ⟨_, rfl⟩, ⟨_, rfl⟩⟩
  · unfold create_identity; rw [hlock]
  · unfold load_identity; rw [hlock]
  · unfold update_identity; rw [hlock]
  · unfold create_secret; rw [hlock]
  · unfold load_secret; rw [hlock]
  · unfold update_secret; rw [hlock]
  · unfold add_file; rw [hlock]
  · unfold load_file; rw [hlock]

/-- Counterexample to C5 as stated: on a locked vault, `list_items` and
`list_secrets_for_item` do not fail with `Locked`; they return normal
results. -/
theorem claim_C5_counterexample :
    lockedDemoState.mk = none ∧
    list_items lockedDemoState ≠ .error .locked ∧
    list_secrets_for_item lockedDemoState "item-1" ≠ .error .locked := by
  refine ⟨rfl, ?_, ?_⟩
  · unfold list_items
    exact fun h => Except.noConfusion h
  · unfold list_secrets_for_item
    exact fun h => Except.noConfusion h

/-- One successful update on a row with non-zero stored version `v` leaves
the row present with version `v + 1`. -/
theorem update_identity_version_step (s : VaultState) (now : Int)
    (item_id : String) (updates : List (String × JVal)) (s2 : VaultState)
    (payload : List (String × JVal)) (it : ItemRow) (v : Int)
    (hfind : findItem s.items item_id = some it) (hver : it.version = some v)
    (hv : v ≠ 0)
    (h : update_identity s now item_id updates = .ok (s2, payload)) :
    ∃ it2, findItem s2.items item_id = some it2 ∧ it2.version = some (v + 1) := by
  obtain ⟨mk, it', pt, obj, touched, hmk, hfind', hdec, hobj, htouch, hblob, hs2⟩ :=
    update_identity_ok_elim s now item_id updates s2 payload h
  rw [hfind] at hfind'
  obtain rfl : it = it' := Option.some.inj hfind'
  refine ⟨{ it with
      title := syncCol it.title (lookupJ updates "name"),
      domain := syncCol it.domain (lookupJ updates "domain"),
      detail_blob_hash := (encrypt_and_store_blob mk
        (encodeJson (.obj touched)) (some (utf8Bytes item_id)) s.blobs s.rng).1,
      detail_dek_wrap := (encrypt_and_store_blob mk
        (encodeJson (.obj touched)) (some (utf8Bytes item_id)) s.blobs s.rng).2.1,
      updated_at := now, version := some (verBump it.version) }, ?_, ?_⟩
  · rw [hs2]
    exact findItem_replaceItem_same s.items item_id _ it hfind
      (findItem_some_key s.items item_id it hfind)
  · show some (verBump it.version) = some (v + 1)
    rw [hver, verBump_of_ne_zero v hv]

theorem updateChain_version (us : List (List (String × JVal))) (s : VaultState)
    (now : Int) (item_id : String) (it : ItemRow) (v : Int)
    (hfind : findItem s.items item_id = some it) (hver : it.version = some v)
    (hv : 1 ≤ v) (s3 : VaultState)
    (h : updateChain s now item_id us = .ok s3) :
    ∃ it3, findItem s3.items item_id = some it3 ∧
      it3.version = some (v + us.length) := by
  induction us generalizing s it v with
  | nil =>
    have hs : s = s3 := Except.ok.inj h
    subst hs
    exact ⟨it, hfind, by simpa using hver⟩
  | cons u us ih =>
    unfold updateChain at h
    split at h
    · rename_i s2 payload hupd
      obtain ⟨it2, hfind2, hver2⟩ := update_identity_version_step s now item_id
        u s2 payload it v hfind hver (by omega) hupd
      obtain ⟨it3, hfind3, hver3⟩ := ih s2 it2 (v + 1) hfind2 hver2 (by omega) h
      refine ⟨it3, hfind3, ?_⟩
      rw [hver3]
      congr 1
      simp only [List.length_cons]
      push_cast
      ring
    · exact absurd h (by simp)

/-- Claim C6: `create_identity` inserts the Item row with version 1; a
successful `update_identity` on a row with a non-zero stored version
increments it by exactly 1 (hence strictly increases it); consequently N
successful successive updates after creation end with version N + 1. -/
theorem claim_C6_version_monotonicity :
    (∀ (s : VaultState) (now : Int) (item_id domain name : String)
        (pii : List (String × JVal)) (site_type : String) (trust_level : Int)
        (s2 : VaultState) (bh : String),
      create_identity s now item_id domain name pii site_type trust_level
        = .ok (s2, bh) →
      ∃ row, findItem s2.items item_id = some row ∧ row.version = some 1) ∧
    (∀ (s : VaultState) (now : Int) (item_id : String)
        (updates : List (String × JVal)) (s2 : VaultState)
        (payload : List (String × JVal)) (it : ItemRow) (v : Int),
      findItem s.items item_id = some it → it.version = some v → v ≠ 0 →
      update_identity s now item_id updates = .ok (s2, payload) →
      ∃ row, findItem s2.items item_id = some row ∧
        row.version = some (v + 1) ∧ v < v + 1) ∧
    (∀ (s : VaultState) (now now2 : Int) (item_id domain name : String)
        (pii : List (String × JVal)) (site_type : String) (trust_level : Int)
        (s2 : VaultState) (bh : String) (us : List (List (String × JVal)))
        (s3 : VaultState),
      create_identity s now item_id domain name pii site_type trust_level
        = .ok (s2, bh) →
      updateChain s2 now2 item_id us = .ok s3 →
      ∃ row, findItem s3.items item_id = some row ∧
        row.version = some ((1 : Int) + us.length)) := by
  have hcreate : ∀ (s : VaultState) (now : Int) (item_id domain name : String)
      (pii : List (String × JVal)) (site_type : String) (trust_level : Int)
      (s2 : VaultState) (bh : String),
      create_identity s now item_id domain name pii site_type trust_level
        = .ok (s2, bh) →
      ∃ row, findItem s2.items item_id = some row ∧ row.version = some 1 := by
    intro s now item_id domain name pii site_type trust_level s2 bh h
    obtain ⟨mk, hmk, hfind, hbh, hs2⟩ := create_identity_ok_elim s now item_id
      domain name pii site_type trust_level s2 bh h
    refine ⟨{ item_id := item_id, domain := .str domain, title := .str name,
              detail_blob_hash := (encrypt_and_store_blob mk
                (encodeJson (.obj (identityObj item_id name pii now)))
                (some (utf8Bytes item_id)) s.blobs s.rng).1,
              detail_dek_wrap := (encrypt_and_store_blob mk
                (encodeJson (.obj (identityObj item_id name pii now)))
                (some (utf8Bytes item_id)) s.blobs s.rng).2.1,
              has_attachments := 0, site_type := site_type,
              trust_level := trust_level, created_at := now,
              updated_at := now, version := some 1, tombstoned := 0 }, ?_, rfl⟩
    rw [hs2]
    exact findItem_append_right s.items _ item_id hfind rfl
  refine ⟨hcreate, ?_, ?_⟩
  · intro s now item_id updates s2 payload it v hfind hver hv0 h
    obtain ⟨it2, hfind2, hver2⟩ := update_identity_version_step s now item_id
      updates s2 payload it v hfind hver hv0 h
    exact ⟨it2, hfind2, hver2, by omega⟩
  · intro s now now2 item_id domain name pii site_type trust_level s2 bh us s3
      hc hchain
    obtain ⟨row, hfindr, hverr⟩ := hcreate s now item_id domain name pii
      site_type trust_level s2 bh hc
    exact updateChain_version us s2 now2 item_id row 1 hfindr hverr le_rfl s3 hchain

/-! ## Secret-side lemmas and load-after-store lemmas (for the AAD claim) -/

theorem findSecret_some_key (rows : List SecretRow) (secret_id : String)
    (sec : SecretRow) (h : findSecret rows secret_id = some sec) :
    sec.secret_id = secret_id := by
  have h2 := List.find?_some h
  simpa using h2

theorem findSecret_replaceSecret_same (rows : List SecretRow)
    (secret_id : String) (r : SecretRow) (sec : SecretRow)
    (hfind : findSecret rows secret_id = some sec)
    (hr : r.secret_id = secret_id) :
    findSecret (replaceSecret rows secret_id r) secret_id = some r := by
  induction rows with
  | nil => exact absurd hfind (by simp [findSecret, List.find?])
  | cons p ps ih =>
    unfold replaceSecret
    simp only [List.map_cons]
    rw [findSecret_cons] at hfind
    by_cases hp : p.secret_id = secret_id
    · rw [if_pos hp, findSecret_cons, if_pos hr]
    · rw [if_neg hp, findSecret_cons, if_neg hp]
      rw [if_neg hp] at hfind
      exact ih hfind

/-- Inversion of a successful `update_secret`. -/
theorem update_secret_ok_elim (s : VaultState) (now : Int) (secret_id : String)
    (updates : List (String × JVal)) (s2 : VaultState)
    (payload : List (String × JVal))
    (h : update_secret s now secret_id updates = .ok (s2, payload)) :
    ∃ mk sec pt obj touched,
      s.mk = some mk ∧
      findSecret s.secretRows secret_id = some sec ∧
      decrypt_blob_with_wrapped_dek mk s.blobs sec.blob_hash
        sec.dek_wrap (some (utf8Bytes secret_id)) = .ok pt ∧
      dictFromBytes pt = .ok obj ∧
      auditTouch (dictUpdate obj updates) now = .ok touched ∧
      blobOfObj secretFieldNames secretRequired touched = some payload ∧
      s2 = { s with
        secretRows := replaceSecret s.secretRows secret_id
          { sec with
            blob_hash := (encrypt_and_store_blob mk
              (encodeJson (.obj touched)) (some (utf8Bytes secret_id))
              s.blobs s.rng).1,
            dek_wrap := (encrypt_and_store_blob mk
              (encodeJson (.obj touched)) (some (utf8Bytes secret_id))
              s.blobs s.rng).2.1,
            updated_at := now },
        blobs := (encrypt_and_store_blob mk (encodeJson (.obj touched))
          (some (utf8Bytes secret_id)) s.blobs s.rng).2.2.1,
        rng := (encrypt_and_store_blob mk (encodeJson (.obj touched))
          (some (utf8Bytes secret_id)) s.blobs s.rng).2.2.2 } := by
  unfold update_secret at h
  split at h
  · exact absurd h (by simp)
  rename_i mk hmk
  split at h
  · exact absurd h (by simp)
  rename_i sec hfind
  split at h
  · exact absurd h (by simp)
  rename_i pt hdec
  split at h
  · exact absurd h (by simp)
  rename_i obj hobj
  split at h
  · exact absurd h (by simp)
  rename_i touched htouch
  split at h
  · exact absurd h (by simp)
  rename_i p hblob
  have hpair := Except.ok.inj h
  have hs2 := congrArg Prod.fst hpair
  have hpay := congrArg Prod.snd hpair
  simp only at hs2 hpay
  exact ⟨mk, sec, pt, obj, touched, hmk, hfind, hdec, hobj, htouch,
    hpay ▸ hblob, hs2.symm⟩

/-- Inversion of a successful `create_secret`. -/
theorem create_secret_ok_elim (s : VaultState) (now : Int)
    (secret_id item_id : String) (secret_type : String)
    (username password totp_uri notes : Option String)
    (s2 : VaultState) (bh : String)
    (h : create_secret s now secret_id item_id secret_type username password
      totp_uri notes = .ok (s2, bh)) :
    ∃ mk, s.mk = some mk ∧ findSecret s.secretRows secret_id = none ∧
      bh = (encrypt_and_store_blob mk
        (encodeJson (.obj (secretObj secret_id secret_type username password
          totp_uri notes now)))
        (some (utf8Bytes secret_id)) s.blobs s.rng).1 ∧
      s2 = { s with
              secretRows := s.secretRows ++
                [{ secret_id := secret_id, item_id := item_id,
                   blob_hash := (encrypt_and_store_blob mk
                     (encodeJson (.obj (secretObj secret_id secret_type username
                       password totp_uri notes now)))
                     (some (utf8Bytes secret_id)) s.blobs s.rng).1,
                   dek_wrap := (encrypt_and_store_blob mk
                     (encodeJson (.obj (secretObj secret_id secret_type username
                       password totp_uri notes now)))
                     (some (utf8Bytes secret_id)) s.blobs s.rng).2.1,
                   secret_type := secret_type, created_at := now,
                   updated_at := now }],
              blobs := (encrypt_and_store_blob mk
                (encodeJson (.obj (secretObj secret_id secret_type username
                  password totp_uri notes now)))
                (some (utf8Bytes secret_id)) s.blobs s.rng).2.2.1,
              rng := (encrypt_and_store_blob mk
                (encodeJson (.obj (secretObj secret_id secret_type username
                  password totp_uri notes now)))
                (some (utf8Bytes secret_id)) s.blobs s.rng).2.2.2 } := by
  unfold create_secret at h
  split at h
  · exact absurd h (by simp)
  rename_i mk hmk
  split at h
  · exact absurd h (by simp)
  rename_i hfind
  have hpair := Except.ok.inj h
  have hs2 := congrArg Prod.fst hpair
  have hbh := congrArg Prod.snd hpair
  simp only at hs2 hbh
  exact ⟨mk, hmk, hfind, hbh.symm, hs2.symm⟩

theorem load_identity_roundtrip_generic (s2 : VaultState) (item_id : String)
    (mk pt : List Nat) (row : ItemRow) (st : BlobStore) (r : Rng)
    (hmk : s2.mk = some mk)
    (hfind : findItem s2.items item_id = some row)
    (hhash : row.detail_blob_hash
      = (encrypt_and_store_blob mk pt (some (utf8Bytes item_id)) st r).1)
    (hwrap : row.detail_dek_wrap
      = (encrypt_and_store_blob mk pt (some (utf8Bytes item_id)) st r).2.1)
    (hblobs : s2.blobs
      = (encrypt_and_store_blob mk pt (some (utf8Bytes item_id)) st r).2.2.1) :
    load_identity s2 item_id = identityFromBytes pt := by
  rw [load_identity_eq s2 item_id mk row hmk hfind, hhash, hwrap, hblobs,
    decrypt_blob_after_encrypt]

theorem load_secret_roundtrip_generic (s2 : VaultState) (secret_id : String)
    (mk pt : List Nat) (row : SecretRow) (st : BlobStore) (r : Rng)
    (hmk : s2.mk = some mk)
    (hfind : findSecret s2.secretRows secret_id = some row)
    (hhash : row.blob_hash
      = (encrypt_and_store_blob mk pt (some (utf8Bytes secret_id)) st r).1)
    (hwrap : row.dek_wrap
      = (encrypt_and_store_blob mk pt (some (utf8Bytes secret_id)) st r).2.1)
    (hblobs : s2.blobs
      = (encrypt_and_store_blob mk pt (some (utf8Bytes secret_id)) st r).2.2.1) :
    load_secret s2 secret_id = secretFromBytes pt := by
  rw [load_secret_eq s2 secret_id mk row hmk hfind, hhash, hwrap, hblobs,
    decrypt_blob_after_encrypt]

theorem load_file_roundtrip_generic (s2 : VaultState) (file_id : String)
    (mk pt : List Nat) (row : FileRow) (st : BlobStore) (r : Rng)
    (hmk : s2.mk = some mk)
    (hfind : findFile s2.fileRows file_id = some row)
    (hhash : row.blob_hash
      = (encrypt_and_store_blob mk pt (some (utf8Bytes file_id)) st r).1)
    (hwrap : row.dek_wrap
      = (encrypt_and_store_blob mk pt (some (utf8Bytes file_id)) st r).2.1)
    (hblobs : s2.blobs
      = (encrypt_and_store_blob mk pt (some (utf8Bytes file_id)) st r).2.2.1) :
    load_file s2 file_id = .ok pt := by
  rw [load_file_eq s2 file_id mk row hmk hfind, hhash, hwrap, hblobs,
    decrypt_blob_after_encrypt]

theorem load_identity_after_create (s : VaultState) (now : Int)
    (item_id domain name : String) (pii : List (String × JVal))
    (site_type : String) (trust_level : Int) (s2 : VaultState) (bh : String)
    (h : create_identity s now item_id domain name pii site_type trust_level
      = .ok (s2, bh)) :
    load_identity s2 item_id
      = identityFromBytes (encodeJson (.obj (identityObj item_id name pii now))) := by
  obtain ⟨mk, hmk, hfind, hbh, hs2⟩ := create_identity_ok_elim s now item_id
    domain name pii site_type trust_level s2 bh h
  subst hs2
  exact load_identity_roundtrip_generic _ item_id mk _ _ s.blobs s.rng hmk
    (findItem_append_right s.items _ item_id hfind rfl) rfl rfl rfl

theorem load_secret_after_create (s : VaultState) (now : Int)
    (secret_id item_id : String) (secret_type : String)
    (username password totp_uri notes : Option String)
    (s2 : VaultState) (bh : String)
    (h : create_secret s now secret_id item_id secret_type username password
      totp_uri notes = .ok (s2, bh)) :
    load_secret s2 secret_id
      = secretFromBytes (encodeJson (.obj (secretObj secret_id secret_type
          username password totp_uri notes now))) := by
  obtain ⟨mk, hmk, hfind, hbh, hs2⟩ := create_secret_ok_elim s now secret_id
    item_id secret_type username password totp_uri notes s2 bh h
  subst hs2
  exact load_secret_roundtrip_generic _ secret_id mk _ _ s.blobs s.rng hmk
    (findSecret_append_right s.secretRows _ secret_id hfind rfl) rfl rfl rfl

theorem load_file_after_add (s : VaultState) (now : Int)
    (file_id item_id filename mime_type : String) (file_bytes : List Nat)
    (description : Option String) (s2 : VaultState) (bh : String)
    (h : add_file s now file_id item_id filename mime_type file_bytes
      description = .ok (s2, bh)) :
    load_file s2 file_id = .ok file_bytes := by
  obtain ⟨mk, hmk, hfind, hbh, hs2⟩ := add_file_ok_elim s now file_id item_id
    filename mime_type file_bytes description s2 bh h
  subst hs2
  exact load_file_roundtrip_generic _ file_id mk file_bytes _ s.blobs s.rng hmk
    (findFile_append_right s.fileRows _ file_id hfind rfl) rfl rfl rfl

theorem load_identity_after_update (s : VaultState) (now : Int)
    (item_id : String) (updates : List (String × JVal)) (s2 : VaultState)
    (payload : List (String × JVal))
    (h : update_identity s now item_id updates = .ok (s2, payload)) :
    ∃ touched,
      blobOfObj identityFieldNames identityRequired touched = some payload ∧
      load_identity s2 item_id = identityFromBytes (encodeJson (.obj touched)) := by
  obtain ⟨mk, it, pt, obj, touched, hmk, hfind, hdec, hobj, htouch, hblob, hs2⟩ :=
    update_identity_ok_elim s now item_id updates s2 payload h
  subst hs2
  refine ⟨touched, hblob, ?_⟩
  exact load_identity_roundtrip_generic _ item_id mk _ _ s.blobs s.rng hmk
    (findItem_replaceItem_same s.items item_id _ it hfind
      (findItem_some_key s.items item_id it hfind)) rfl rfl rfl

theorem load_secret_after_update (s : VaultState) (now : Int)
    (secret_id : String) (updates : List (String × JVal)) (s2 : VaultState)
    (payload : List (String × JVal))
    (h : update_secret s now secret_id updates = .ok (s2, payload)) :
    ∃ touched,
      blobOfObj secretFieldNames secretRequired touched = some payload ∧
      load_secret s2 secret_id = secretFromBytes (encodeJson (.obj touched)) := by
  obtain ⟨mk, sec, pt, obj, touched, hmk, hfind, hdec, hobj, htouch, hblob, hs2⟩ :=
    update_secret_ok_elim s now secret_id updates s2 payload h
  subst hs2
  refine ⟨touched, hblob, ?_⟩
  exact load_secret_roundtrip_generic _ secret_id mk _ _ s.blobs s.rng hmk
    (findSecret_replaceSecret_same s.secretRows secret_id _ sec hfind
      (findSecret_some_key s.secretRows secret_id sec hfind)) rfl rfl rfl

theorem aadOrWrapInfo_of_ne_nil (u : List Nat) (hne : u ≠ []) :
    aadOrWrapInfo (some u) = u := by
  show (if u = [] then WRAP_INFO else u) = u
  rw [if_neg hne]

theorem esb_wrap_eq (mk pt u : List Nat) (st : BlobStore) (r : Rng)
    (hne : u ≠ []) :
    (encrypt_and_store_blob mk pt (some u) st r).2.1
      = (aead_encrypt (derive_wrap_key mk) (make_dek r).1 (some u)
          (aead_encrypt (make_dek r).1 pt (some u) (make_dek r).2).2).1.1 := by
  show (wrap_dek mk (make_dek r).1 (some u)
    (aead_encrypt (make_dek r).1 pt (some u) (make_dek r).2).2).1 = _
  rw [wrap_dek_eq, aadOrWrapInfo_of_ne_nil u hne]

theorem aead_decrypt_reject (key blob aadE : List Nat)
    (hbad : ¬ gcmTagOk key blob aadE) :
    aead_decrypt key blob (some aadE) = .error .cryptoFailure := by
  unfold aead_decrypt
  simp only [aadEff, Option.getD_some]
  unfold gcmTagOk at hbad
  rw [not_and_or] at hbad
  unfold gcmDecrypt
  rcases hbad with hshort | htag
  · rw [if_pos (by omega)]
  · by_cases hlen : (blob.drop 12).length < 16
    · rw [if_pos hlen]
    · rw [if_neg hlen, if_neg (fun hh => htag hh)]

theorem unwrap_dek_reject (mk wb u : List Nat) (hne : u ≠ [])
    (hbad : ¬ gcmTagOk (derive_wrap_key mk) wb u) :
    unwrap_dek mk wb (some u) = .error .cryptoFailure := by
  unfold unwrap_dek
  rw [aadOrWrapInfo_of_ne_nil u hne]
  exact aead_decrypt_reject (derive_wrap_key mk) wb u hbad

/-- Claim C1 (amended to records whose primary key is a non-empty string):
every store operation produces both the payload ciphertext and the
wrapped-DEK ciphertext with effective AAD equal to the UTF-8 encoding of
the record's primary key, every load passes the identical AAD to the
shared unwrap/decrypt pipeline (so create/update followed by load
round-trips), and decryption rejects with `CryptoFailure` whenever the
supplied AAD makes the authentication tag fail to verify.  For an empty
primary key the `aad or WRAP_INFO` fallback in `wrap_dek` replaces the AAD
by the constant, which is why the claim is restricted to non-empty keys. -/
theorem claim_C1_aad_binding :
    (∀ u : List Nat, u ≠ [] → aadEff (some u) = u ∧ aadOrWrapInfo (some u) = u) ∧
    (∀ (s : VaultState) (now : Int) (item_id domain name : String)
        (pii : List (String × JVal)) (site_type : String) (trust_level : Int)
        (s2 : VaultState) (bh : String) (mk : List Nat),
      s.mk = some mk → utf8Bytes item_id ≠ [] →
      create_identity s now item_id domain name pii site_type trust_level
        = .ok (s2, bh) →
      ∃ row dek r1 r2,
        findItem s2.items item_id = some row ∧
        row.detail_blob_hash = bh ∧
        storeGet s2.blobs (blobPath bh)
          = some ((aead_encrypt dek
              (encodeJson (.obj (identityObj item_id name pii now)))
              (some (utf8Bytes item_id)) r1).1.1) ∧
        row.detail_dek_wrap
          = (aead_encrypt (derive_wrap_key mk) dek
              (some (utf8Bytes item_id)) r2).1.1 ∧
        load_identity s2 item_id
          = identityFromBytes
              (encodeJson (.obj (identityObj item_id name pii now)))) ∧
    (∀ (s : VaultState) (now : Int) (secret_id item_id : String)
        (secret_type : String) (username password totp_uri notes : Option String)
        (s2 : VaultState) (bh : String) (mk : List Nat),
      s.mk = some mk → utf8Bytes secret_id ≠ [] →
      create_secret s now secret_id item_id secret_type username password
        totp_uri notes = .ok (s2, bh) →
      ∃ row dek r1 r2,
        findSecret s2.secretRows secret_id = some row ∧
        row.blob_hash = bh ∧
        storeGet s2.blobs (blobPath bh)
          = some ((aead_encrypt dek
              (encodeJson (.obj (secretObj secret_id secret_type username
                password totp_uri notes now)))
              (some (utf8Bytes secret_id)) r1).1.1) ∧
        row.dek_wrap
          = (aead_encrypt (derive_wrap_key mk) dek
              (some (utf8Bytes secret_id)) r2).1.1 ∧
        load_secret s2 secret_id
          = secretFromBytes (encodeJson (.obj (secretObj secret_id secret_type
              username password totp_uri notes now)))) ∧
    (∀ (s : VaultState) (now : Int) (file_id item_id : String)
        (filename mime_type : String) (file_bytes : List Nat)
        (description : Option String) (s2 : VaultState) (bh : String)
        (mk : List Nat),
      s.mk = some mk → utf8Bytes file_id ≠ [] →
      add_file s now file_id item_id filename mime_type file_bytes description
        = .ok (s2, bh) →
      ∃ row dek r1 r2,
        findFile s2.fileRows file_id = some row ∧
        row.blob_hash = bh ∧
        storeGet s2.blobs (blobPath bh)
          = some ((aead_encrypt dek file_bytes
              (some (utf8Bytes file_id)) r1).1.1) ∧
        row.dek_wrap
          = (aead_encrypt (derive_wrap_key mk) dek
              (some (utf8Bytes file_id)) r2).1.1 ∧
        load_file s2 file_id = .ok file_bytes) ∧
    (∀ (s : VaultState) (now : Int) (item_id : String)
        (updates : List (String × JVal)) (s2 : VaultState)
        (payload : List (String × JVal)) (mk : List Nat),
      s.mk = some mk → utf8Bytes item_id ≠ [] →
      update_identity s now item_id updates = .ok (s2, payload) →
      ∃ touched row dek r1 r2,
        blobOfObj identityFieldNames identityRequired touched = some payload ∧
        findItem s2.items item_id = some row ∧
        storeGet s2.blobs (blobPath row.detail_blob_hash)
          = some ((aead_encrypt dek (encodeJson (.obj touched))
              (some (utf8Bytes item_id)) r1).1.1) ∧
        row.detail_dek_wrap
          = (aead_encrypt (derive_wrap_key mk) dek
              (some (utf8Bytes item_id)) r2).1.1 ∧
        load_identity s2 item_id
          = identityFromBytes (encodeJson (.obj touched))) ∧
    (∀ (s : VaultState) (now : Int) (secret_id : String)
        (updates : List (String × JVal)) (s2 : VaultState)
        (payload : List (String × JVal)) (mk : List Nat),
      s.mk = some mk → utf8Bytes secret_id ≠ [] →
      update_secret s now secret_id updates = .ok (s2, payload) →
      ∃ touched row dek r1 r2,
        blobOfObj secretFieldNames secretRequired touched = some payload ∧
        findSecret s2.secretRows secret_id = some row ∧
        storeGet s2.blobs (blobPath row.blob_hash)
          = some ((aead_encrypt dek (encodeJson (.obj touched))
              (some (utf8Bytes secret_id)) r1).1.1) ∧
        row.dek_wrap
          = (aead_encrypt (derive_wrap_key mk) dek
              (some (utf8Bytes secret_id)) r2).1.1 ∧
        load_secret s2 secret_id
          = secretFromBytes (encodeJson (.obj touched))) ∧
    (∀ (s : VaultState) (item_id : String) (mk : List Nat) (it : ItemRow),
      s.mk = some mk → findItem s.items item_id = some it →
      load_identity s item_id
        = match decrypt_blob_with_wrapped_dek mk s.blobs it.detail_blob_hash
            it.detail_dek_wrap (some (utf8Bytes item_id)) with
          | .error e => .error e
          | .ok pt => identityFromBytes pt) ∧
    (∀ (mk wb u : List Nat), u ≠ [] →
      ¬ gcmTagOk (derive_wrap_key mk) wb u →
      unwrap_dek mk wb (some u) = .error .cryptoFailure) ∧
    (∀ (key blob u : List Nat),
      ¬ gcmTagOk key blob u →
      aead_decrypt key blob (some u) = .error .cryptoFailure) := by
  refine ⟨?_, ?_, ?_, ?_, ?_, ?_, ?_, ?_, ?_⟩
  · intro u hne
    exact ⟨rfl, aadOrWrapInfo_of_ne_nil u hne⟩
  · intro s now item_id domain name pii site_type trust_level s2 bh mk hmk hne h
    obtain ⟨mk2, hmk2, hfind, hbh, hs2⟩ := create_identity_ok_elim s now item_id
      domain name pii site_type trust_level s2 bh h
    rw [hmk] at hmk2
    obtain rfl : mk = mk2 := Option.some.inj hmk2
    have hload := load_identity_after_create s now item_id domain name pii
      site_type trust_level s2 bh h
    subst hs2
    refine ⟨_, (make_dek s.rng).1, (make_dek s.rng).2,
      (aead_encrypt (make_dek s.rng).1
        (encodeJson (.obj (identityObj item_id name pii now)))
        (some (utf8Bytes item_id)) (make_dek s.rng).2).2,
      findItem_append_right s.items _ item_id hfind rfl,
      hbh.symm, ?_, ?_, hload⟩
    · rw [hbh]
      exact esb_store_get mk (encodeJson (.obj (identityObj item_id name pii now)))
        (some (utf8Bytes item_id)) s.blobs s.rng
    · exact esb_wrap_eq mk (encodeJson (.obj (identityObj item_id name pii now)))
        (utf8Bytes item_id) s.blobs s.rng hne
  · intro s now secret_id item_id secret_type username password totp_uri notes
      s2 bh mk hmk hne h
    obtain ⟨mk2, hmk2, hfind, hbh, hs2⟩ := create_secret_ok_elim s now secret_id
      item_id secret_type username password totp_uri notes s2 bh h
    rw [hmk] at hmk2
    obtain rfl : mk = mk2 := Option.some.inj hmk2
    have hload := load_secret_after_create s now secret_id item_id secret_type
      username password totp_uri notes s2 bh h
    subst hs2
    refine ⟨_, (make_dek s.rng).1, (make_dek s.rng).2,
      (aead_encrypt (make_dek s.rng).1
        (encodeJson (.obj (secretObj secret_id secret_type username password
          totp_uri notes now)))
        (some (utf8Bytes secret_id)) (make_dek s.rng).2).2,
      findSecret_append_right s.secretRows _ secret_id hfind rfl,
      hbh.symm, ?_, ?_, hload⟩
    · rw [hbh]
      exact esb_store_get mk (encodeJson (.obj (secretObj secret_id secret_type
        username password totp_uri notes now)))
        (some (utf8Bytes secret_id)) s.blobs s.rng
    · exact esb_wrap_eq mk (encodeJson (.obj (secretObj secret_id secret_type
        username password totp_uri notes now)))
        (utf8Bytes secret_id) s.blobs s.rng hne
  · intro s now file_id item_id filename mime_type file_bytes description
      s2 bh mk hmk hne h
    obtain ⟨mk2, hmk2, hfind, hbh, hs2⟩ := add_file_ok_elim s now file_id
      item_id filename mime_type file_bytes description s2 bh h
    rw [hmk] at hmk2
    obtain rfl : mk = mk2 := Option.some.inj hmk2
    have hload := load_file_after_add s now file_id item_id filename mime_type
      file_bytes description s2 bh h
    subst hs2
    refine ⟨_, (make_dek s.rng).1, (make_dek s.rng).2,
      (aead_encrypt (make_dek s.rng).1 file_bytes
        (some (utf8Bytes file_id)) (make_dek s.rng).2).2,
      findFile_append_right s.fileRows _ file_id hfind rfl,
      hbh.symm, ?_, ?_, hload⟩
    · rw [hbh]
      exact esb_store_get mk file_bytes (some (utf8Bytes file_id)) s.blobs s.rng
    · exact esb_wrap_eq mk file_bytes (utf8Bytes file_id) s.blobs s.rng hne
  · intro s now item_id updates s2 payload mk hmk hne h
    obtain ⟨touched, hblob, hload⟩ :=
      load_identity_after_update s now item_id updates s2 payload h
    obtain ⟨mk2, it, pt, obj, touched2, hmk2, hfind, hdec, hobj, htouch,
      hblob2, hs2⟩ := update_identity_ok_elim s now item_id updates s2 payload h
    rw [hmk] at hmk2
    obtain rfl : mk = mk2 := Option.some.inj hmk2
    subst hs2
    refine ⟨touched2, _, (make_dek s.rng).1, (make_dek s.rng).2,
      (aead_encrypt (make_dek s.rng).1 (encodeJson (.obj touched2))
        (some (utf8Bytes item_id)) (make_dek s.rng).2).2,
      hblob2,
      findItem_replaceItem_same s.items item_id _ it hfind
        (findItem_some_key s.items item_id it hfind),
      ?_, ?_, ?_⟩
    · exact esb_store_get mk (encodeJson (.obj touched2))
        (some (utf8Bytes item_id)) s.blobs s.rng
    · exact esb_wrap_eq mk (encodeJson (.obj touched2))
        (utf8Bytes item_id) s.blobs s.rng hne
    · exact load_identity_roundtrip_generic _ item_id mk _ _ s.blobs s.rng hmk
        (findItem_replaceItem_same s.items item_id _ it hfind
          (findItem_some_key s.items item_id it hfind)) rfl rfl rfl
  · intro s now secret_id updates s2 payload mk hmk hne h
    obtain ⟨mk2, sec, pt, obj, touched2, hmk2, hfind, hdec, hobj, htouch,
      hblob2, hs2⟩ := update_secret_ok_elim s now secret_id updates s2 payload h
    rw [hmk] at hmk2
    obtain rfl : mk = mk2 := Option.some.inj hmk2
    subst hs2
    refine ⟨touched2, _, (make_dek s.rng).1, (make_dek s.rng).2,
      (aead_encrypt (make_dek s.rng).1 (encodeJson (.obj touched2))
        (some (utf8Bytes secret_id)) (make_dek s.rng).2).2,
      hblob2,
      findSecret_replaceSecret_same s.secretRows secret_id _ sec hfind
        (findSecret_some_key s.secretRows secret_id sec hfind),
      ?_, ?_, ?_⟩
    · exact esb_store_get mk (encodeJson (.obj touched2))
        (some (utf8Bytes secret_id)) s.blobs s.rng
    · exact esb_wrap_eq mk (encodeJson (.obj touched2))
        (utf8Bytes secret_id) s.blobs s.rng hne
    · exact load_secret_roundtrip_generic _ secret_id mk _ _ s.blobs s.rng hmk
        (findSecret_replaceSecret_same s.secretRows secret_id _ sec hfind
          (findSecret_some_key s.secretRows secret_id sec hfind)) rfl rfl rfl
  · intro s item_id mk it hmk hfind
    exact load_identity_eq s item_id mk it hmk hfind
  · intro mk wb u hne hbad
    exact unwrap_dek_reject mk wb u hne hbad
  · intro key blob u hbad
    exact aead_decrypt_reject key blob u hbad

/-- Counterexample to C1 as stated: for a record whose primary key is the
empty string, `wrap_dek`'s `aad or WRAP_INFO` fallback silently replaces
the record AAD with the constant.  The wrapped DEK stored by
`create_identity("")` is rejected under AAD = `"".encode()` and accepted
under AAD = `WRAP_INFO`, so the wrapped-DEK ciphertext was not produced
with the record's primary-key AAD. -/
theorem claim_C1_counterexample :
    ∃ s2 bh,
      create_identity unlockedDemoState 5 "" "example.com" "Alice" [] "generic" 0
        = .ok (s2, bh) ∧
      ∃ row, findItem s2.items "" = some row ∧
        utf8Bytes "" = [] ∧
        aead_decrypt (derive_wrap_key demoMk) row.detail_dek_wrap
          (some (utf8Bytes "")) = .error .cryptoFailure ∧
        (∃ dek, aead_decrypt (derive_wrap_key demoMk) row.detail_dek_wrap
          (some WRAP_INFO) = .ok dek) :=
  ⟨_, _, rfl, _, rfl, rfl, rfl, _, rfl⟩

/-- Witness for C1 at a concrete vault and non-empty key `"item-1"`. -/
theorem claim_C1_aad_binding_witness :
    utf8Bytes "item-1" ≠ [] ∧
    (∃ s2 bh,
      create_identity unlockedDemoState 5 "item-1" "example.com" "Alice"
          [("email", JVal.str "a@e.com")] "generic" 0 = .ok (s2, bh) ∧
      (∃ row dek r1 r2,
        findItem s2.items "item-1" = some row ∧
        row.detail_blob_hash = bh ∧
        storeGet s2.blobs (blobPath bh)
          = some ((aead_encrypt dek
              (encodeJson (.obj (identityObj "item-1" "Alice"
                [("email", JVal.str "a@e.com")] 5)))
              (some (utf8Bytes "item-1")) r1).1.1) ∧
        row.detail_dek_wrap
          = (aead_encrypt (derive_wrap_key demoMk) dek
              (some (utf8Bytes "item-1")) r2).1.1 ∧
        load_identity s2 "item-1"
          = identityFromBytes (encodeJson (.obj (identityObj "item-1" "Alice"
              [("email", JVal.str "a@e.com")] 5))))) :=
  ⟨by decide, _, _, rfl,
    claim_C1_aad_binding.2.1 unlockedDemoState 5 "item-1" "example.com" "Alice"
      [("email", JVal.str "a@e.com")] "generic" 0 _ _ demoMk rfl (by decide) rfl⟩

/-- Witness for C5 on a concrete locked vault. -/
theorem claim_C5_locked_operations_witness :
    lockedDemoState.mk = none ∧
    (create_identity lockedDemoState 5 "item-2" "d" "n" [] "generic" 0
      = .error .locked ∧
    load_identity lockedDemoState "item-2" = .error .locked ∧
    update_identity lockedDemoState 5 "item-2" [] = .error .locked ∧
    create_secret lockedDemoState 5 "sec-2" "item-2" "password" none none
      none none = .error .locked ∧
    load_secret lockedDemoState "sec-2" = .error .locked ∧
    update_secret lockedDemoState 5 "sec-2" [] = .error .locked ∧
    add_file lockedDemoState 5 "file-2" "item-2" "f.txt" "text/plain" [] none
      = .error .locked ∧
    load_file lockedDemoState "file-2" = .error .locked ∧
    (∃ xs, list_items lockedDemoState = .ok xs) ∧
    (∃ ys, list_secrets_for_item lockedDemoState "item-2" = .ok ys)) :=
  ⟨rfl, claim_C5_locked_operations lockedDemoState rfl 5 "item-2" "sec-2"
    "file-2" "d" "n" "generic" "f.txt" "text/plain" "password" [] [] 0
    none none none none none []⟩

theorem except_eq_ok_of_check {ε α : Type} (x : Except ε α) (d : α)
    (h : (match x with | .ok _ => true | .error _ => false) = true) :
    x = .ok (match x with | .ok a => a | .error _ => d) := by
  cases x with
  | ok a => rfl
  | error e => simp at h

theorem except_eq_ok_pair_of_check {ε α β : Type} (x : Except ε (α × β))
    (da : α) (db : β)
    (h : (match x with | .ok _ => true | .error _ => false) = true) :
    x = .ok ((match x with | .ok p => p.1 | .error _ => da),
             (match x with | .ok p => p.2 | .error _ => db)) := by
  cases x with
  | ok p => rfl
  | error e => simp at h

theorem option_eq_some_of_check {α : Type} (x : Option α) (d : α)
    (h : (match x with | some _ => true | none => false) = true) :
    x = some (match x with | some a => a | none => d) := by
  cases x with
  | some a => rfl
  | none => simp at h

/-- Witness for C6: create followed by a chain of two successful updates
ends with version 3. -/
theorem claim_C6_version_monotonicity_witness :
    ∃ s2 bh,
      create_identity unlockedDemoState 5 "item-1" "d" "Alice"
        [("email", JVal.str "a@e.com")] "generic" 0 = .ok (s2, bh) ∧
      ∃ s3, updateChain s2 6 "item-1" c6updates = .ok s3 ∧
        ∃ row, findItem s3.items "item-1" = some row ∧
          row.version = some ((1 : Int) + c6updates.length) := by
  have hc : create_identity unlockedDemoState 5 "item-1" "d" "Alice"
      [("email", JVal.str "a@e.com")] "generic" 0 = .ok (c6s2, c6bh) :=
    except_eq_ok_pair_of_check c6create unlockedDemoState "" (by decide)
  have hchain : updateChain c6s2 6 "item-1" c6updates = .ok c6s3 :=
    except_eq_ok_of_check (updateChain c6s2 6 "item-1" c6updates) c6s2 (by decide)
  exact ⟨c6s2, c6bh, hc, c6s3, hchain,
    claim_C6_version_monotonicity.2.2 unlockedDemoState 5 6 "item-1" "d"
      "Alice" [("email", JVal.str "a@e.com")] "generic" 0 c6s2 c6bh c6updates
      c6s3 hc hchain⟩

/-- Witness for C7 on a concrete payload and update map. -/
theorem claim_C7_shallow_merge_semantics_witness :
    ((([("phone", JVal.str "+2"), ("email", JVal.null),
        ("address", JVal.obj [("city", JVal.str "Y")])]
      : List (String × JVal)).map Prod.fst).Nodup) ∧
    ((∀ k v, lookupJ [("phone", JVal.str "+2"), ("email", JVal.null),
        ("address", JVal.obj [("city", JVal.str "Y")])] k = some v →
        v ≠ .null →
      lookupJ (dictUpdate
        [("name", JVal.str "Alice"), ("phone", JVal.str "+1"),
         ("email", JVal.str "a@e.com"),
         ("address", JVal.obj [("city", JVal.str "X"), ("zip", JVal.str "1")])]
        [("phone", JVal.str "+2"), ("email", JVal.null),
         ("address", JVal.obj [("city", JVal.str "Y")])]) k = some v) ∧
    (∀ k, lookupJ [("phone", JVal.str "+2"), ("email", JVal.null),
        ("address", JVal.obj [("city", JVal.str "Y")])] k = some .null →
      lookupJ (dictUpdate
        [("name", JVal.str "Alice"), ("phone", JVal.str "+1"),
         ("email", JVal.str "a@e.com"),
         ("address", JVal.obj [("city", JVal.str "X"), ("zip", JVal.str "1")])]
        [("phone", JVal.str "+2"), ("email", JVal.null),
         ("address", JVal.obj [("city", JVal.str "Y")])]) k
        = lookupJ [("name", JVal.str "Alice"), ("phone", JVal.str "+1"),
            ("email", JVal.str "a@e.com"),
            ("address", JVal.obj [("city", JVal.str "X"),
              ("zip", JVal.str "1")])] k) ∧
    (∀ k, lookupJ [("phone", JVal.str "+2"), ("email", JVal.null),
        ("address", JVal.obj [("city", JVal.str "Y")])] k = none →
      lookupJ (dictUpdate
        [("name", JVal.str "Alice"), ("phone", JVal.str "+1"),
         ("email", JVal.str "a@e.com"),
         ("address", JVal.obj [("city", JVal.str "X"), ("zip", JVal.str "1")])]
        [("phone", JVal.str "+2"), ("email", JVal.null),
         ("address", JVal.obj [("city", JVal.str "Y")])]) k
        = lookupJ [("name", JVal.str "Alice"), ("phone", JVal.str "+1"),
            ("email", JVal.str "a@e.com"),
            ("address", JVal.obj [("city", JVal.str "X"),
              ("zip", JVal.str "1")])] k) ∧
    (∀ k m, lookupJ [("phone", JVal.str "+2"), ("email", JVal.null),
        ("address", JVal.obj [("city", JVal.str "Y")])] k = some (.obj m) →
      lookupJ (dictUpdate
        [("name", JVal.str "Alice"), ("phone", JVal.str "+1"),
         ("email", JVal.str "a@e.com"),
         ("address", JVal.obj [("city", JVal.str "X"), ("zip", JVal.str "1")])]
        [("phone", JVal.str "+2"), ("email", JVal.null),
         ("address", JVal.obj [("city", JVal.str "Y")])]) k
        = some (.obj m))) :=
  ⟨by decide,
   claim_C7_shallow_merge_semantics
     [("name", JVal.str "Alice"), ("phone", JVal.str "+1"),
      ("email", JVal.str "a@e.com"),
      ("address", JVal.obj [("city", JVal.str "X"), ("zip", JVal.str "1")])]
     [("phone", JVal.str "+2"), ("email", JVal.null),
      ("address", JVal.obj [("city", JVal.str "Y")])]
     (by decide)⟩

/-- Witness for C8 at lengths 7 (rejected) and 8 (generated). -/
theorem claim_C8_password_generator_witness :
    (generate_secure_password 7 ⟨11, 0⟩ = .error .invalidArgument) ∧
    (∃ pw : String,
      generate_secure_password 8 ⟨11, 0⟩ = .ok pw ∧
      pw.length = 8 ∧
      pw.data.any (fun c => string_ascii_uppercase.contains c) = true ∧
      pw.data.any (fun c => string_ascii_lowercase.contains c) = true ∧
      pw.data.any (fun c => string_digits.contains c) = true ∧
      pw.data.any (fun c => generatorSymbols.contains c) = true) :=
  ⟨(claim_C8_password_generator 7 ⟨11, 0⟩).1 (by decide),
   (claim_C8_password_generator 8 ⟨11, 0⟩).2 (by decide)⟩

/-- Witness for C9: adding a file under a missing item on a concrete vault. -/
theorem claim_C9_add_file_missing_item_witness :
    unlockedDemoState.mk = some demoMk ∧
    (∃ s2 bh,
      add_file unlockedDemoState 5 "file-1" "missing-item" "f.txt" "text/plain"
        [1, 2, 3] none = .ok (s2, bh) ∧
      (∃ fr, findFile s2.fileRows "file-1" = some fr ∧
        fr.size_bytes = (([1, 2, 3] : List Nat).length : Int) ∧
        fr.item_id = "missing-item" ∧ fr.filename = "f.txt") ∧
      s2.items = unlockedDemoState.items) :=
  ⟨rfl, claim_C9_add_file_missing_item unlockedDemoState 5 "file-1"
    "missing-item" "f.txt" "text/plain" [1, 2, 3] none demoMk rfl rfl
    (fun it hit => absurd hit (List.not_mem_nil it))⟩

/-- Witness for C10: create then update with a non-null name on a concrete
vault. -/
theorem claim_C10_update_identity_frame_witness :
    ∃ s2 bh,
      create_identity unlockedDemoState 5 "item-1" "d" "Alice"
        [("email", JVal.str "a@e.com")] "generic" 0 = .ok (s2, bh) ∧
    ∃ it, findItem s2.items "item-1" = some it ∧
    ∃ s3 payload,
      update_identity s2 6 "item-1" [("name", JVal.str "Bob")]
        = .ok (s3, payload) ∧
      (∃ it2, findItem s3.items "item-1" = some it2 ∧
        it2.item_id = it.item_id ∧
        it2.site_type = it.site_type ∧
        it2.trust_level = it.trust_level ∧
        it2.tombstoned = it.tombstoned ∧
        it2.has_attachments = it.has_attachments ∧
        it2.created_at = it.created_at ∧
        it2.updated_at = 6 ∧
        it2.version = some (verBump it.version) ∧
        it2.title = syncCol it.title
          (lookupJ [("name", JVal.str "Bob")] "name") ∧
        it2.domain = syncCol it.domain
          (lookupJ [("name", JVal.str "Bob")] "domain") ∧
        (∃ ct, storeGet s3.blobs (blobPath it2.detail_blob_hash) = some ct ∧
          it2.detail_blob_hash = sha256_hex ct)) := by
  have hc : create_identity unlockedDemoState 5 "item-1" "d" "Alice"
      [("email", JVal.str "a@e.com")] "generic" 0 = .ok (c10s2, c10bh) :=
    except_eq_ok_pair_of_check c10create unlockedDemoState "" (by decide)
  have hfind : findItem c10s2.items "item-1" = some c10it :=
    option_eq_some_of_check (findItem c10s2.items "item-1") dummyItemRow
      (by decide)
  have hupd : update_identity c10s2 6 "item-1" [("name", JVal.str "Bob")]
      = .ok (c10s3, c10payload) :=
    except_eq_ok_pair_of_check c10upd c10s2 [] (by decide)
  exact ⟨c10s2, c10bh, hc, c10it, hfind, c10s3, c10payload, hupd,
    claim_C10_update_identity_frame c10s2 6 "item-1"
      [("name", JVal.str "Bob")] c10s3 c10payload c10it hfind hupd⟩
